import Mathlib

/-!
mdblockkit: Markdown AST to Slack rich-text blocks

A shallow embedding of `renderer/renderer.go` (package `renderer`) and the
properties of its rendering rules.

Modelling conventions

* The goldmark AST (`ast.Node`) is an immutable tree.  A node carries its kind,
  its ordered children, the value of `node.Text(source)`, and the kind-specific
  attributes the renderer reads (`Emphasis.Level`, `List.IsOrdered()`,
  `Link.Destination`, `Text.SoftLineBreak()`, `Text.HardLineBreak()`).
* Every method of `MyRenderer` has a value receiver, so each call works on its own
  copy of the context fields `insideHeader`, `blockquoteLevel`, `listLevel`; the
  embedding passes the renderer value as an argument.  The `blocks` field is a
  pointer: its target (`slack.Blocks.BlockSet`) is explicit state threaded through
  `Render`.
* A Go function returning `(T, error)` becomes `Except Failure T`.  `Failure.error`
  is a returned `error` value, `Failure.panic` a run-time panic raised by a failed
  single-value type assertion.
* Go distinguishes the element `*slack.RichTextList` (what `slack.NewRichTextList`
  returns) from the element `slack.RichTextList` (a dereferenced value); both
  implement `slack.RichTextElement`.  The distinction decides the type assertion
  `element.(slack.RichTextList)` and is kept as two constructors.
-/

namespace MdBlockKit

/-! ## Source tree (goldmark `ast`) -/

/-- Node kinds of the goldmark AST (`ast.NodeKind`): the block and inline kinds of
the core parser and the table kind of the table extension. -/
inductive NodeKind where
  | KindDocument
  | KindHeading
  | KindParagraph
  | KindTextBlock
  | KindBlockquote
  | KindList
  | KindListItem
  | KindCodeBlock
  | KindFencedCodeBlock
  | KindHTMLBlock
  | KindThematicBreak
  | KindText
  | KindCodeSpan
  | KindEmphasis
  | KindLink
  | KindImage
  | KindAutoLink
  | KindRawHTML
  | KindTable
  deriving DecidableEq, Repr

open NodeKind

/-- The registered name of a kind: `NodeKind.String()`. -/
def KindName : NodeKind → String
  | KindDocument => "Document"
  | KindHeading => "Heading"
  | KindParagraph => "Paragraph"
  | KindTextBlock => "TextBlock"
  | KindBlockquote => "Blockquote"
  | KindList => "List"
  | KindListItem => "ListItem"
  | KindCodeBlock => "CodeBlock"
  | KindFencedCodeBlock => "FencedCodeBlock"
  | KindHTMLBlock => "HTMLBlock"
  | KindThematicBreak => "ThematicBreak"
  | KindText => "Text"
  | KindCodeSpan => "CodeSpan"
  | KindEmphasis => "Emphasis"
  | KindLink => "Link"
  | KindImage => "Image"
  | KindAutoLink => "AutoLink"
  | KindRawHTML => "RawHTML"
  | KindTable => "Table"

/-- The kind-specific attributes the renderer reads, together with the value of
`node.Text(source)`. -/
structure Attrs where
  /-- The value of `string(node.Text(source))`. -/
  text : String := ""
  /-- The field `Emphasis.Level` (1 for `*x*`, 2 for `**x**`). -/
  level : Int := 0
  /-- The value of `List.IsOrdered()`. -/
  isOrdered : Bool := false
  /-- The field `Link.Destination`. -/
  destination : String := ""
  /-- The value of `Text.SoftLineBreak()`. -/
  softLineBreak : Bool := false
  /-- The value of `Text.HardLineBreak()`. -/
  hardLineBreak : Bool := false
  deriving DecidableEq, Repr

/-- An AST node: kind, attributes and ordered children (`FirstChild` /
`NextSibling`). -/
inductive Node where
  | mk (kind : NodeKind) (attrs : Attrs) (children : List Node) : Node

/-- The value of `node.Kind()`. -/
def Node.kind : Node → NodeKind
  | .mk k _ _ => k

/-- The attributes of a node. -/
def Node.attrs : Node → Attrs
  | .mk _ a _ => a

/-- The children of a node in sibling order. -/
def Node.children : Node → List Node
  | .mk _ _ cs => cs

/-! ## Output tree (slack rich text) -/

/-- The struct `slack.RichTextSectionTextStyle`, restricted to the two fields the
renderer sets. -/
structure RichTextSectionTextStyle where
  bold : Bool := false
  italic : Bool := false
  deriving DecidableEq, Repr

/-- Inline elements (`slack.RichTextSectionElement`).  The style is a pointer in Go:
`none` is the nil pointer. -/
inductive RichTextSectionElement where
  /-- The result of `slack.NewRichTextSectionTextElement(text, style)`. -/
  | TextElement (text : String) (style : Option RichTextSectionTextStyle)
  /-- The result of `slack.NewRichTextSectionLinkElement(url, text, style)`. -/
  | LinkElement (url : String) (text : String) (style : Option RichTextSectionTextStyle)
  deriving DecidableEq, Repr

/-- The style pointer of an inline element. -/
def RichTextSectionElement.style : RichTextSectionElement → Option RichTextSectionTextStyle
  | .TextElement _ s => s
  | .LinkElement _ _ s => s

/-- List styles (`slack.RichTextListElementType`). -/
inductive RichTextListElementType where
  | RTEListOrdered
  | RTEListBullet
  deriving DecidableEq, Repr

open RichTextListElementType

/-- Element type tags (`slack.RichTextElementType`). -/
inductive RichTextElementType where
  | RTESection
  | RTEList
  | RTEQuote
  deriving DecidableEq, Repr

open RichTextElementType

/-- The string value of an element type tag. -/
def RichTextElementType.str : RichTextElementType → String
  | RTESection => "rich_text_section"
  | RTEList => "rich_text_list"
  | RTEQuote => "rich_text_quote"

/-- Block-level rich text elements (`slack.RichTextElement`) as the renderer builds
them. -/
inductive RichTextElement where
  /-- A `*slack.RichTextSection`. -/
  | Section (elements : List RichTextSectionElement)
  /-- A `*slack.RichTextList`, as returned by `slack.NewRichTextList`. -/
  | ListPtr (style : RichTextListElementType) (indent : Int) (elements : List RichTextElement)
  /-- A `slack.RichTextList` value, as obtained from `*slack.NewRichTextList(...)`. -/
  | ListVal (style : RichTextListElementType) (indent : Int) (elements : List RichTextElement)
  /-- A `*slack.RichTextQuote`. -/
  | Quote (elements : List RichTextSectionElement)

/-- The method `RichTextElementType()`: the `Type` field set by the constructor. -/
def RichTextElement.RichTextElementType : RichTextElement → RichTextElementType
  | .Section _ => RTESection
  | .ListPtr _ _ _ => RTEList
  | .ListVal _ _ _ => RTEList
  | .Quote _ => RTEQuote

/-- A `*slack.RichTextBlock` as built by `slack.NewRichTextBlock(blockID, elements...)`. -/
structure RichTextBlock where
  blockID : String
  elements : List RichTextElement

/-- The constructor `slack.NewRichTextBlock`. -/
def NewRichTextBlock (blockID : String) (elements : List RichTextElement) : RichTextBlock :=
  { blockID := blockID, elements := elements }

/-! ## Failures -/

/-- How a call can fail: a returned `error` or a run-time panic. -/
inductive Failure where
  | error (msg : String)
  | panic (msg : String)
  deriving DecidableEq, Repr

/-- The panic raised by `element.(slack.RichTextList)` on a `*slack.RichTextList`. -/
def listAssertionPanic : Failure :=
  .panic "interface conversion: slack.RichTextElement is *slack.RichTextList, not slack.RichTextList"

/-! ## The renderer -/

/-- The context fields of `MyRenderer` (copied on every method call). -/
structure MyRenderer where
  insideHeader : Bool
  blockquoteLevel : Int
  listLevel : Int
  deriving DecidableEq, Repr

/-- The context set by `CreateMyRenderer`. -/
def CreateMyRenderer : MyRenderer :=
  { insideHeader := false, blockquoteLevel := 0, listLevel := 0 }

/-- The method `AssertKind`. -/
def AssertKind (node : Node) (kind : NodeKind) : Except Failure Unit :=
  if node.kind ≠ kind then
    .error (.error ("ast is not a " ++ KindName kind))
  else
    .ok ()

/-- The method `RenderText`. -/
def RenderText (r : MyRenderer) (node : Node) : Except Failure (List RichTextSectionElement) :=
  match AssertKind node KindText with
  | .error e => .error e
  | .ok _ =>
    let style : Option RichTextSectionTextStyle :=
      if r.insideHeader then some { bold := true } else none
    let text := node.attrs.text
    let text := if node.attrs.softLineBreak || node.attrs.hardLineBreak then text ++ "\n" else text
    .ok [.TextElement text style]

/-- The method `RenderLink`. -/
def RenderLink (r : MyRenderer) (node : Node) : Except Failure (List RichTextSectionElement) :=
  match AssertKind node KindLink with
  | .error e => .error e
  | .ok _ =>
    let style : Option RichTextSectionTextStyle :=
      if r.insideHeader then some { bold := true } else none
    let text := node.attrs.text
    .ok [.LinkElement node.attrs.destination text style]

/-- The method `RenderEmphasis`. -/
def RenderEmphasis (r : MyRenderer) (node : Node) : Except Failure (List RichTextSectionElement) :=
  match AssertKind node KindEmphasis with
  | .error e => .error e
  | .ok _ =>
    let style : RichTextSectionTextStyle := {}
    let style := if r.insideHeader || node.attrs.level == 2 then { style with bold := true } else style
    let style := if node.attrs.level == 1 then { style with italic := true } else style
    let text := node.attrs.text
    .ok [.TextElement text (some style)]

/-- The method `RenderRichTextSectionElement`. -/
def RenderRichTextSectionElement (r : MyRenderer) (node : Node) :
    Except Failure (List RichTextSectionElement) :=
  match node.kind with
  | KindText => RenderText r node
  | KindEmphasis => RenderEmphasis r node
  | KindLink => RenderLink r node
  | k => .error (.error ("unsupported node type: " ++ KindName k))

/-- The loop of `RenderRichTextSectionElements` from a given child on, with the
elements accumulated so far. -/
def RenderRichTextSectionElementsFrom (r : MyRenderer) (elements : List RichTextSectionElement) :
    List Node → Except Failure (List RichTextSectionElement)
  | [] => .ok elements
  | child :: rest =>
    match RenderRichTextSectionElement r child with
    | .error e => .error e
    | .ok childElements => RenderRichTextSectionElementsFrom r (elements ++ childElements) rest

/-- The method `RenderRichTextSectionElements`. -/
def RenderRichTextSectionElements (r : MyRenderer) (node : Node) :
    Except Failure (List RichTextSectionElement) :=
  RenderRichTextSectionElementsFrom r [] node.children

/-- The paragraph separator `slack.NewRichTextSectionTextElement("\n\n", nil)`. -/
def separator : RichTextSectionElement := .TextElement "\n\n" none

/-- The method `RenderTextBlock`. -/
def RenderTextBlock (r : MyRenderer) (node : Node) : Except Failure (List RichTextBlock) :=
  match AssertKind node KindTextBlock with
  | .error e => .error e
  | .ok _ =>
    match RenderRichTextSectionElements r node with
    | .error e => .error e
    | .ok elements =>
      let elements := elements ++ [separator]
      .ok [NewRichTextBlock "" [.Section elements]]

/-- The method `RenderParagraph`. -/
def RenderParagraph (r : MyRenderer) (node : Node) : Except Failure (List RichTextBlock) :=
  match AssertKind node KindParagraph with
  | .error e => .error e
  | .ok _ =>
    match RenderRichTextSectionElements r node with
    | .error e => .error e
    | .ok elements =>
      let elements := elements ++ [separator]
      .ok [NewRichTextBlock "" [.Section elements]]

/-- The method `RenderHeading`. -/
def RenderHeading (r : MyRenderer) (node : Node) : Except Failure (List RichTextBlock) :=
  match AssertKind node KindHeading with
  | .error e => .error e
  | .ok _ =>
    let r := { r with insideHeader := true }
    match RenderRichTextSectionElements r node with
    | .error e => .error e
    | .ok elements =>
      let elements := elements ++ [separator]
      .ok [NewRichTextBlock "" [.Section elements]]

/-! ### List assembly -/

/-- The list style chosen by `RenderList`: ordered or bullet. -/
def listStyle (node : Node) : RichTextListElementType :=
  if node.attrs.isOrdered then RTEListOrdered else RTEListBullet

/-- The state of the loops of `RenderList`: the slices `elements` and `subElements`. -/
structure ListAcc where
  elements : List RichTextElement
  subElements : List RichTextElement

/-- The body of the innermost loop of `RenderList` for one element: the switch on
`element.RichTextElementType()`.  `indent` is the value of `r.listLevel-1`. -/
def listElementStep (style : RichTextListElementType) (indent : Int) (acc : ListAcc)
    (element : RichTextElement) : Except Failure ListAcc :=
  match element.RichTextElementType with
  | RTESection => .ok { acc with subElements := acc.subElements ++ [element] }
  | RTEList =>
    let elements := acc.elements ++ [.ListPtr style indent acc.subElements]
    match element with
    | .ListVal _ _ _ => .ok { elements := elements ++ [element], subElements := [] }
    | _ => .error listAssertionPanic
  | t => .error (.error ("unsupported element type: " ++ t.str))

/-- The loop `for _, element := range rtb.Elements` of `RenderList`. -/
def listElementsLoop (style : RichTextListElementType) (indent : Int) (acc : ListAcc) :
    List RichTextElement → Except Failure ListAcc
  | [] => .ok acc
  | element :: rest =>
    match listElementStep style indent acc element with
    | .error e => .error e
    | .ok acc => listElementsLoop style indent acc rest

/-- The loop `for _, b := range block` of `RenderList`. -/
def listBlocksLoop (style : RichTextListElementType) (indent : Int) (acc : ListAcc) :
    List RichTextBlock → Except Failure ListAcc
  | [] => .ok acc
  | b :: rest =>
    match listElementsLoop style indent acc b.elements with
    | .error e => .error e
    | .ok acc => listBlocksLoop style indent acc rest

/-- The end of `RenderList`: the guarded final flush and the wrapping block. -/
def listFinish (style : RichTextListElementType) (indent : Int) (acc : ListAcc) :
    List RichTextBlock :=
  let elements :=
    if acc.subElements.length > 0 then
      acc.elements ++ [.ListVal style indent acc.subElements]
    else acc.elements
  [NewRichTextBlock "" elements]

/-! ### Quote assembly -/

/-- The loop `for _, element := range rtb.Elements` of `RenderBlockquote`.  The
switch is on `element.RichTextElementType()`; the tag `RTESection` is carried by
sections only, so the case `RTESection` with its assertion
`element.(*slack.RichTextSection)` is the match on the constructor. -/
def quoteElementsLoop (elements : List RichTextSectionElement) :
    List RichTextElement → Except Failure (List RichTextSectionElement)
  | [] => .ok elements
  | element :: rest =>
    match element with
    | .Section items => quoteElementsLoop (elements ++ items) rest
    | other => .error (.error ("unsupported element type: " ++ other.RichTextElementType.str))

/-- The loop `for _, block := range blocks` of `RenderBlockquote`. -/
def quoteBlocksLoop (elements : List RichTextSectionElement) :
    List RichTextBlock → Except Failure (List RichTextSectionElement)
  | [] => .ok elements
  | block :: rest =>
    match quoteElementsLoop elements block.elements with
    | .error e => .error e
    | .ok elements => quoteBlocksLoop elements rest

/-- The end of `RenderBlockquote`: flatten the rendered blocks into one quote. -/
def quoteFinish (blocks : List RichTextBlock) : Except Failure (List RichTextBlock) :=
  match quoteBlocksLoop [] blocks with
  | .error e => .error e
  | .ok elements => .ok [NewRichTextBlock "" [.Quote elements]]

/-! ### Block rendering

`RenderBlock`, `RenderBlocks`, `RenderList` and `RenderBlockquote` call each other.
The recursion is over the tree: `RenderBlock` is defined together with the two loops
over children, and the arms for lists and blockquotes carry the bodies of
`RenderList` and `RenderBlockquote` after their (passing) kind assertion.  The
methods themselves are defined below and shown equal to these arms. -/

mutual

/-- The method `RenderBlock`. -/
def RenderBlock (r : MyRenderer) : Node → Except Failure (List RichTextBlock)
  | .mk kind attrs children =>
    match kind with
    | KindHeading => RenderHeading r (.mk kind attrs children)
    | KindParagraph => RenderParagraph r (.mk kind attrs children)
    | KindTextBlock => RenderTextBlock r (.mk kind attrs children)
    | KindBlockquote =>
      if r.blockquoteLevel > 0 then
        .error (.error "nested blockquotes are not supported")
      else
        let r := { r with blockquoteLevel := r.blockquoteLevel + 1 }
        match RenderBlocksFrom r [] children with
        | .error e => .error e
        | .ok blocks => quoteFinish blocks
    | KindList =>
      let r := { r with listLevel := r.listLevel + 1 }
      let style := listStyle (.mk kind attrs children)
      match RenderListFrom r style { elements := [], subElements := [] } children with
      | .error e => .error e
      | .ok acc => .ok (listFinish style (r.listLevel - 1) acc)
    | k => .error (.error ("unsupported node type: " ++ KindName k))

/-- The loop of `RenderBlocks` from a given child on, with the blocks accumulated so
far. -/
def RenderBlocksFrom (r : MyRenderer) (blocks : List RichTextBlock) :
    List Node → Except Failure (List RichTextBlock)
  | [] => .ok blocks
  | child :: rest =>
    match RenderBlock r child with
    | .error e => .error e
    | .ok childBlocks => RenderBlocksFrom r (blocks ++ childBlocks) rest

/-- The outer loop of `RenderList` from a given child on; `r` is the renderer after
`r.listLevel++`.  The call `r.RenderBlocks(w, source, child)` is the loop of
`RenderBlocks` over the children of `child`. -/
def RenderListFrom (r : MyRenderer) (style : RichTextListElementType) (acc : ListAcc) :
    List Node → Except Failure ListAcc
  | [] => .ok acc
  | .mk _ _ grandchildren :: rest =>
    match RenderBlocksFrom r [] grandchildren with
    | .error e => .error e
    | .ok block =>
      match listBlocksLoop style (r.listLevel - 1) acc block with
      | .error e => .error e
      | .ok acc => RenderListFrom r style acc rest

end

/-- The method `RenderBlocks`. -/
def RenderBlocks (r : MyRenderer) (node : Node) : Except Failure (List RichTextBlock) :=
  RenderBlocksFrom r [] node.children

/-- The method `RenderList`. -/
def RenderList (r : MyRenderer) (node : Node) : Except Failure (List RichTextBlock) :=
  match AssertKind node KindList with
  | .error e => .error e
  | .ok _ =>
    let r := { r with listLevel := r.listLevel + 1 }
    let style := listStyle node
    match RenderListFrom r style { elements := [], subElements := [] } node.children with
    | .error e => .error e
    | .ok acc => .ok (listFinish style (r.listLevel - 1) acc)

/-- The method `RenderBlockquote`. -/
def RenderBlockquote (r : MyRenderer) (node : Node) : Except Failure (List RichTextBlock) :=
  match AssertKind node KindBlockquote with
  | .error e => .error e
  | .ok _ =>
    if r.blockquoteLevel > 0 then
      .error (.error "nested blockquotes are not supported")
    else
      let r := { r with blockquoteLevel := r.blockquoteLevel + 1 }
      match RenderBlocks r node with
      | .error e => .error e
      | .ok blocks => quoteFinish blocks

/-- The method `RenderDocument`. -/
def RenderDocument (r : MyRenderer) (node : Node) : Except Failure (List RichTextBlock) :=
  match AssertKind node KindDocument with
  | .error e => .error e
  | .ok _ =>
    match RenderBlocks r node with
    | .error e => .error e
    | .ok blocks => .ok blocks

/-- The method `Render`: the first component is the returned error (`none` for nil),
the second the value of `r.blocks.BlockSet` after the call, given its value
`blockSet` before. -/
def Render (r : MyRenderer) (blockSet : List RichTextBlock) (node : Node) :
    Option Failure × List RichTextBlock :=
  match RenderDocument r node with
  | .error e => (some e, blockSet)
  | .ok blocks => (none, blockSet ++ blocks)

/-! ## Traversal paths

Vocabulary for stating which node the traversal fails at first. -/

/-- The relation `Reaches r node r' target` holds when rendering `node` as a block
with context `r` calls `RenderBlock` on `target` with context `r'`, and everything
rendered before that call succeeded.  A step goes from a blockquote (entered at level 0) to one of its children
or from a list to a child of one of its items; the siblings rendered earlier must
have rendered, and the earlier items must have been assembled, without failure. -/
inductive Reaches : MyRenderer → Node → MyRenderer → Node → Prop where
  | here (r : MyRenderer) (node : Node) : Reaches r node r node
  | quote (r r' : MyRenderer) (node target child : Node) (pre post : List Node) :
      node.kind = KindBlockquote →
      ¬ r.blockquoteLevel > 0 →
      node.children = pre ++ child :: post →
      (∃ blocks, RenderBlocksFrom { r with blockquoteLevel := r.blockquoteLevel + 1 } [] pre
        = .ok blocks) →
      Reaches { r with blockquoteLevel := r.blockquoteLevel + 1 } child r' target →
      Reaches r node r' target
  | list (r r' : MyRenderer) (node target item child : Node) (pre post ipre ipost : List Node) :
      node.kind = KindList →
      node.children = pre ++ item :: post →
      (∃ acc, RenderListFrom { r with listLevel := r.listLevel + 1 } (listStyle node)
        { elements := [], subElements := [] } pre = .ok acc) →
      item.children = ipre ++ child :: ipost →
      (∃ blocks, RenderBlocksFrom { r with listLevel := r.listLevel + 1 } [] ipre = .ok blocks) →
      Reaches { r with listLevel := r.listLevel + 1 } child r' target →
      Reaches r node r' target

/-- The property `ExposesUnsupported r node k` holds when rendering `node` as a block
with context `r` meets, before anything else fails, a node of kind `k` that has no rendering rule: `node`
itself, whose kind is none of the five block kinds, or a direct inline child of a
paragraph, text block or heading whose kind is none of Text, Emphasis, Link and whose
earlier siblings rendered without failure. -/
def ExposesUnsupported (r : MyRenderer) (node : Node) (k : NodeKind) : Prop :=
  (k = node.kind ∧ k ≠ KindHeading ∧ k ≠ KindParagraph ∧ k ≠ KindTextBlock ∧
    k ≠ KindBlockquote ∧ k ≠ KindList) ∨
  (∃ (pre post : List Node) (x : Node),
    (node.kind = KindParagraph ∨ node.kind = KindTextBlock ∨ node.kind = KindHeading) ∧
    node.children = pre ++ x :: post ∧
    (∃ elements, RenderRichTextSectionElementsFrom
      (if node.kind = KindHeading then { r with insideHeader := true } else r) [] pre
        = .ok elements) ∧
    k = x.kind ∧ k ≠ KindText ∧ k ≠ KindEmphasis ∧ k ≠ KindLink)

/-! ## Concrete inputs -/

/-- A Text node with the given content and no line break. -/
def textNode (s : String) : Node := .mk KindText { text := s } []

/-- The tree goldmark builds for `some _italic and **bold** text_ test`. -/
def boldInsideItalic : Node :=
  .mk KindDocument {} [
    .mk KindParagraph {} [
      textNode "some ",
      .mk KindEmphasis { text := "italic and bold text", level := 1 } [
        textNode "italic and ",
        .mk KindEmphasis { text := "bold", level := 2 } [textNode "bold"],
        textNode " text"],
      textNode " test"]]

/-- The section elements `TestBoldInsideItalic` expects for `boldInsideItalic`. -/
def boldInsideItalicExpected : List RichTextSectionElement :=
  [ .TextElement "some " none,
    .TextElement "italic and " (some { italic := true }),
    .TextElement "bold" (some { italic := true, bold := true }),
    .TextElement " text" (some { italic := true }),
    .TextElement " test" none,
    .TextElement "\n\n" none ]

/-- The tree for `[![alt](pic.png)](http://example.com)`: a paragraph holding a link
whose only child is an image. -/
def imageInsideLink : Node :=
  .mk KindDocument {} [
    .mk KindParagraph {} [
      .mk KindLink { text := "alt", destination := "http://example.com" } [
        .mk KindImage { text := "alt", destination := "pic.png" } [textNode "alt"]]]]

/-- A document with an image at top level (inside its paragraph). -/
def imageDocument : Node :=
  .mk KindDocument {} [
    .mk KindParagraph {} [textNode "see ", .mk KindImage { text := "alt" } [textNode "alt"]]]

/-- A document whose first paragraph holds an image and whose second block is a
blockquote nested in a blockquote. -/
def imageBeforeNestedQuote : Node :=
  .mk KindDocument {} [
    .mk KindParagraph {} [.mk KindImage { text := "alt" } [textNode "alt"]],
    .mk KindBlockquote {} [
      .mk KindBlockquote {} [.mk KindParagraph {} [textNode "deep"]]]]

/-- A document holding a blockquote whose list item holds another blockquote. -/
def quoteInListInQuote : Node :=
  .mk KindDocument {} [
    .mk KindParagraph {} [textNode "intro"],
    .mk KindBlockquote {} [
      .mk KindParagraph {} [textNode "outer"],
      .mk KindList {} [
        .mk KindListItem {} [
          .mk KindTextBlock {} [textNode "item"],
          .mk KindBlockquote {} [.mk KindParagraph {} [textNode "inner"]]]]]]

/-- A bullet list with a single empty item (the Markdown source `-`). -/
def emptyItemList : Node :=
  .mk KindList {} [.mk KindListItem {} []]

/-- A bullet list of two items without sub-lists. -/
def flatList : Node :=
  .mk KindList {} [
    .mk KindListItem {} [.mk KindTextBlock {} [textNode "one"]],
    .mk KindListItem {} [.mk KindTextBlock {} [textNode "two"]]]

/-- The elements of the blocks rendered from the items of a list, item after item and
block after block, in order. -/
def renderedElements (rendered : List (List RichTextBlock)) : List RichTextElement :=
  rendered.flatten.flatMap (fun b => b.elements)

/-- A heading holding a text, a link and an italic emphasis. -/
def headingNode : Node :=
  .mk KindHeading {} [
    textNode "Release ",
    .mk KindLink { text := "notes", destination := "http://example.com" } [textNode "notes"],
    .mk KindEmphasis { text := "draft", level := 1 } [textNode "draft"]]

/-- A paragraph of two lines joined by a soft line break. -/
def twoLineParagraph : Node :=
  .mk KindParagraph {} [
    .mk KindText { text := "first", softLineBreak := true } [],
    textNode "second"]

/-- A document of a heading followed by a paragraph. -/
def headingThenParagraph : Node :=
  .mk KindDocument {} [headingNode, twoLineParagraph]

/-- A document whose second block is a list with a table in its second item. -/
def tableInListItem : Node :=
  .mk KindDocument {} [
    .mk KindParagraph {} [textNode "intro"],
    .mk KindList {} [
      .mk KindListItem {} [.mk KindTextBlock {} [textNode "one"]],
      .mk KindListItem {} [.mk KindTextBlock {} [textNode "two"], .mk KindTable {} []]]]

/-! ## Vocabulary for assembled lists and quotes -/

/-- The inline items of a section; no items for any other element. -/
def sectionElements : RichTextElement → List RichTextSectionElement
  | .Section elements => elements
  | _ => []

/-- The elements of a sequence of blocks, block after block. -/
def blockElements (blocks : List RichTextBlock) : List RichTextElement :=
  blocks.flatMap (fun b => b.elements)

/-- A group met by the loops of `RenderList`: the sections pending when a nested list
element is met, and that nested element. -/
abbrev ListGroup := List RichTextElement × RichTextElement

/-- The elements `RenderList` returns for the groups it met and the sections pending
at the end: for each group the List element built by the mid-list flush followed by
the nested element, then the List element built by the guarded final flush. -/
def assembleOutput (style : RichTextListElementType) (indent : Int) (groups : List ListGroup)
    (final : List RichTextElement) : List RichTextElement :=
  groups.flatMap (fun g => [.ListPtr style indent g.1, g.2]) ++
    (if final.length > 0 then [.ListVal style indent final] else [])

/-- The elements rendered from the items, in the order the loops met them: the
sections and the nested element of each group, then the sections pending at the
end. -/
def interleaved (groups : List ListGroup) (final : List RichTextElement) :
    List RichTextElement :=
  groups.flatMap (fun g => g.1 ++ [g.2]) ++ final

/-- Flattening of the elements returned by `RenderList`: a List element built by the
mid-list flush (a `*slack.RichTextList`, always followed by the nested element it was
flushed for) is replaced by its items and the nested element is kept; the List element
built by the final flush (a `slack.RichTextList` value in last position) is replaced
by its items. -/
def flattenOwn : List RichTextElement → List RichTextElement
  | [] => []
  | .ListPtr _ _ items :: nested :: rest => items ++ nested :: flattenOwn rest
  | [.ListVal _ _ items] => items
  | e :: rest => e :: flattenOwn rest

/-- A bullet list holding one text block and the given nested blocks in one item. -/
def listOf (s : String) (nested : List Node) : Node :=
  .mk KindList {} [.mk KindListItem {} (.mk KindTextBlock {} [textNode s] :: nested)]

/-- The tree of a bullet list nested three levels deep:
`- a`, below it `- b`, below it `- c`. -/
def threeLevelList : Node :=
  listOf "a" [listOf "b" [listOf "c" []]]

/-- The tree of a bullet list nested two levels deep. -/
def twoLevelList : Node :=
  listOf "a" [listOf "b" []]

/-- A list whose only item starts with a nested list (nothing is pending when the
nested list element is met). -/
def listStartingWithSublist : Node :=
  .mk KindList {} [.mk KindListItem {} [listOf "b" []]]

/-- A list whose only item starts with a list nested two levels deep: the nested call
returns two List elements in a row. -/
def listStartingWithDeepSublist : Node :=
  .mk KindList {} [.mk KindListItem {} [twoLevelList]]

/-- A blockquote holding a list whose only item is empty (the Markdown source `> -`). -/
def quoteWithEmptyList : Node :=
  .mk KindBlockquote {} [emptyItemList]

/-- A blockquote holding a paragraph and a list of two items. -/
def quoteWithList : Node :=
  .mk KindBlockquote {} [.mk KindParagraph {} [textNode "quoted"], flatList]

/-- A blockquote of two paragraphs. -/
def quoteOfParagraphs : Node :=
  .mk KindBlockquote {} [
    .mk KindParagraph {} [textNode "first"],
    .mk KindParagraph {} [textNode "second"]]

/-- A link inside a heading context or outside. -/
def linkNode : Node :=
  .mk KindLink { text := "notes", destination := "http://example.com" } [
    .mk KindEmphasis { text := "notes", level := 1 } [textNode "notes"]]

/-- Well-formed groups: the pending sections of a group are sections and its nested
element is a `slack.RichTextList` value (the only kind of List element that passes
the assertion of the loop). -/
def GroupsWellFormed (groups : List ListGroup) : Prop :=
  ∀ g ∈ groups, (∀ s ∈ g.1, ∃ items, s = .Section items) ∧
    ∃ style indent items, g.2 = .ListVal style indent items

/-- The invariant of the loops of `RenderList`: the state `acc` is what the loops
build from the elements `seen` so far. -/
def Assembles (style : RichTextListElementType) (indent : Int) (acc : ListAcc)
    (seen : List RichTextElement) : Prop :=
  ∃ groups : List ListGroup,
    acc.elements = groups.flatMap (fun g => [.ListPtr style indent g.1, g.2]) ∧
    seen = interleaved groups acc.subElements ∧
    GroupsWellFormed groups ∧
    ∀ s ∈ acc.subElements, ∃ items, s = .Section items

/-- A List element is flat when all its items are sections; sections and quotes hold
inline elements only and are flat. -/
def FlatElement : RichTextElement → Prop
  | .ListPtr _ _ items => ∀ i ∈ items, ∃ elements, i = .Section elements
  | .ListVal _ _ items => ∀ i ∈ items, ∃ elements, i = .Section elements
  | _ => True

/-- A list item holding one text block. -/
def plainItem : Node :=
  .mk KindListItem {} [.mk KindTextBlock {} [textNode "one"]]

/-- A list item holding a blockquote of one paragraph. -/
def quoteItem : Node :=
  .mk KindListItem {} [.mk KindBlockquote {} [.mk KindParagraph {} [textNode "quoted"]]]

/-! # Theorems -/

/-! ## Unfolding lemmas -/

theorem RenderBlocksFrom_nil (r : MyRenderer) (blocks : List RichTextBlock) :
    RenderBlocksFrom r blocks [] = .ok blocks := by
  simp [RenderBlocksFrom]

theorem RenderBlocksFrom_cons (r : MyRenderer) (blocks : List RichTextBlock) (c : Node)
    (rest : List Node) :
    RenderBlocksFrom r blocks (c :: rest) =
      match RenderBlock r c with
      | .error e => .error e
      | .ok childBlocks => RenderBlocksFrom r (blocks ++ childBlocks) rest := by
  simp [RenderBlocksFrom]

theorem RenderBlock_dispatch (r : MyRenderer) (node : Node) :
    RenderBlock r node =
      match node.kind with
      | KindHeading => RenderHeading r node
      | KindParagraph => RenderParagraph r node
      | KindTextBlock => RenderTextBlock r node
      | KindBlockquote => RenderBlockquote r node
      | KindList => RenderList r node
      | k => .error (.error ("unsupported node type: " ++ KindName k)) := by
  cases node with
  | mk kind attrs children =>
    cases kind <;>
      simp [RenderBlock, RenderList, RenderBlockquote, RenderBlocks, AssertKind, Node.kind,
        Node.children]

/-- The accumulator of the `RenderBlocks` loop is a prefix of its result. -/
theorem RenderBlocksFrom_acc (r : MyRenderer) (children : List Node) :
    ∀ blocks : List RichTextBlock,
      RenderBlocksFrom r blocks children =
        match RenderBlocksFrom r [] children with
        | .error e => .error e
        | .ok rendered => .ok (blocks ++ rendered) := by
  induction children with
  | nil => intro blocks; simp [RenderBlocksFrom_nil]
  | cons c rest ih =>
    intro blocks
    rw [RenderBlocksFrom_cons, RenderBlocksFrom_cons]
    cases hc : RenderBlock r c with
    | error e => rfl
    | ok childBlocks =>
      simp only []
      rw [ih (blocks ++ childBlocks), ih ([] ++ childBlocks)]
      cases RenderBlocksFrom r [] rest with
      | error e => rfl
      | ok rendered => simp [List.append_assoc]

/-- The accumulator of the inline loop is a prefix of its result. -/
theorem RenderRichTextSectionElementsFrom_acc (r : MyRenderer) (children : List Node) :
    ∀ elements : List RichTextSectionElement,
      RenderRichTextSectionElementsFrom r elements children =
        match RenderRichTextSectionElementsFrom r [] children with
        | .error e => .error e
        | .ok rendered => .ok (elements ++ rendered) := by
  induction children with
  | nil => intro elements; simp [RenderRichTextSectionElementsFrom]
  | cons c rest ih =>
    intro elements
    simp only [RenderRichTextSectionElementsFrom]
    cases hc : RenderRichTextSectionElement r c with
    | error e => rfl
    | ok childElements =>
      simp only []
      rw [ih (elements ++ childElements), ih ([] ++ childElements)]
      cases RenderRichTextSectionElementsFrom r [] rest with
      | error e => rfl
      | ok rendered => simp [List.append_assoc]

/-- A successful paragraph-like rule yields one block with one section that ends in
the separator. -/
theorem RenderParagraph_shape (r : MyRenderer) (node : Node) (blocks : List RichTextBlock)
    (h : RenderParagraph r node = .ok blocks) :
    ∃ elements, RenderRichTextSectionElements r node = .ok elements ∧
      blocks = [NewRichTextBlock "" [.Section (elements ++ [separator])]] := by
  unfold RenderParagraph at h
  cases ha : AssertKind node KindParagraph with
  | error e => rw [ha] at h; cases h
  | ok u =>
    rw [ha] at h
    cases he : RenderRichTextSectionElements r node with
    | error e => rw [he] at h; cases h
    | ok elements =>
      rw [he] at h
      refine ⟨elements, rfl, ?_⟩
      cases h; rfl

theorem RenderTextBlock_shape (r : MyRenderer) (node : Node) (blocks : List RichTextBlock)
    (h : RenderTextBlock r node = .ok blocks) :
    ∃ elements, RenderRichTextSectionElements r node = .ok elements ∧
      blocks = [NewRichTextBlock "" [.Section (elements ++ [separator])]] := by
  unfold RenderTextBlock at h
  cases ha : AssertKind node KindTextBlock with
  | error e => rw [ha] at h; cases h
  | ok u =>
    rw [ha] at h
    cases he : RenderRichTextSectionElements r node with
    | error e => rw [he] at h; cases h
    | ok elements =>
      rw [he] at h
      refine ⟨elements, rfl, ?_⟩
      cases h; rfl

theorem RenderHeading_shape (r : MyRenderer) (node : Node) (blocks : List RichTextBlock)
    (h : RenderHeading r node = .ok blocks) :
    ∃ elements,
      RenderRichTextSectionElements { r with insideHeader := true } node = .ok elements ∧
      blocks = [NewRichTextBlock "" [.Section (elements ++ [separator])]] := by
  unfold RenderHeading at h
  cases ha : AssertKind node KindHeading with
  | error e => rw [ha] at h; cases h
  | ok u =>
    rw [ha] at h
    cases he : RenderRichTextSectionElements { r with insideHeader := true } node with
    | error e => simp only [he] at h; cases h
    | ok elements =>
      simp only [he] at h
      refine ⟨elements, rfl, ?_⟩
      cases h; rfl

/-- Inside a heading every inline rule produces bold elements only. -/
theorem RenderRichTextSectionElement_bold (r : MyRenderer) (hr : r.insideHeader = true)
    (node : Node) (elements : List RichTextSectionElement)
    (h : RenderRichTextSectionElement r node = .ok elements) :
    ∀ e ∈ elements, ∃ st, e.style = some st ∧ st.bold = true := by
  cases node with
  | mk kind attrs children =>
    cases kind <;>
      simp [RenderRichTextSectionElement, RenderText, RenderEmphasis, RenderLink, AssertKind,
        Node.kind, Node.attrs, hr] at h
    all_goals
      subst h
      intro e he
      simp at he
      subst he
      simp [RichTextSectionElement.style]
    · split <;> simp

theorem RenderRichTextSectionElementsFrom_bold (r : MyRenderer) (hr : r.insideHeader = true)
    (children : List Node) :
    ∀ (acc elements : List RichTextSectionElement),
      (∀ e ∈ acc, ∃ st, e.style = some st ∧ st.bold = true) →
      RenderRichTextSectionElementsFrom r acc children = .ok elements →
      ∀ e ∈ elements, ∃ st, e.style = some st ∧ st.bold = true := by
  induction children with
  | nil =>
    intro acc elements hacc h
    simp [RenderRichTextSectionElementsFrom] at h
    subst h; exact hacc
  | cons c rest ih =>
    intro acc elements hacc h
    simp only [RenderRichTextSectionElementsFrom] at h
    cases hc : RenderRichTextSectionElement r c with
    | error e => rw [hc] at h; cases h
    | ok childElements =>
      rw [hc] at h
      refine ih (acc ++ childElements) elements ?_ h
      intro e he
      rcases List.mem_append.mp he with h1 | h2
      · exact hacc e h1
      · exact RenderRichTextSectionElement_bold r hr c childElements hc e h2

theorem RenderList_singleton (r : MyRenderer) (node : Node) (blocks : List RichTextBlock)
    (h : RenderList r node = .ok blocks) : ∃ b, blocks = [b] := by
  unfold RenderList at h
  cases ha : AssertKind node KindList with
  | error e => rw [ha] at h; cases h
  | ok u =>
    simp only [ha] at h
    split at h
    · cases h
    · cases h; exact ⟨_, rfl⟩

theorem quoteFinish_singleton (rendered blocks : List RichTextBlock)
    (h : quoteFinish rendered = .ok blocks) : ∃ b, blocks = [b] := by
  unfold quoteFinish at h
  split at h
  · cases h
  · cases h; exact ⟨_, rfl⟩

theorem RenderBlockquote_singleton (r : MyRenderer) (node : Node) (blocks : List RichTextBlock)
    (h : RenderBlockquote r node = .ok blocks) : ∃ b, blocks = [b] := by
  unfold RenderBlockquote at h
  cases ha : AssertKind node KindBlockquote with
  | error e => rw [ha] at h; cases h
  | ok u =>
    simp only [ha] at h
    split at h
    · cases h
    · split at h
      · cases h
      · exact quoteFinish_singleton _ _ h

/-- Every successful block rule returns exactly one block. -/
theorem RenderBlock_singleton (r : MyRenderer) (node : Node) (blocks : List RichTextBlock)
    (h : RenderBlock r node = .ok blocks) : ∃ b, blocks = [b] := by
  rw [RenderBlock_dispatch] at h
  split at h
  · obtain ⟨_, _, hb⟩ := RenderHeading_shape r node blocks h; exact ⟨_, hb⟩
  · obtain ⟨_, _, hb⟩ := RenderParagraph_shape r node blocks h; exact ⟨_, hb⟩
  · obtain ⟨_, _, hb⟩ := RenderTextBlock_shape r node blocks h; exact ⟨_, hb⟩
  · exact RenderBlockquote_singleton r node blocks h
  · exact RenderList_singleton r node blocks h
  · cases h

theorem RenderBlocksFrom_pointwise (r : MyRenderer) (children : List Node) :
    ∀ blocks : List RichTextBlock, RenderBlocksFrom r [] children = .ok blocks →
      List.Forall₂ (fun child b => RenderBlock r child = .ok [b]) children blocks := by
  induction children with
  | nil =>
    intro blocks h
    rw [RenderBlocksFrom_nil] at h
    cases h; exact List.Forall₂.nil
  | cons c rest ih =>
    intro blocks h
    rw [RenderBlocksFrom_cons] at h
    cases hc : RenderBlock r c with
    | error e => rw [hc] at h; cases h
    | ok childBlocks =>
      rw [hc] at h
      simp only [] at h
      rw [RenderBlocksFrom_acc] at h
      cases hrest : RenderBlocksFrom r [] rest with
      | error e => rw [hrest] at h; cases h
      | ok rendered =>
        rw [hrest] at h
        obtain ⟨b, hb⟩ := RenderBlock_singleton r c childBlocks hc
        subst hb
        cases h
        exact List.Forall₂.cons hc (ih rendered hrest)

/-! ## Claims C5 to C10 -/

/-- C5: every element of the section rendered from a heading, the trailing separator
apart, carries a non-null style with `bold = true`. -/
theorem RenderHeading_elements_bold (r : MyRenderer) (node : Node)
    (blocks : List RichTextBlock) (h : RenderHeading r node = .ok blocks) :
    ∃ elements : List RichTextSectionElement,
      blocks = [NewRichTextBlock "" [.Section (elements ++ [separator])]] ∧
      ∀ e ∈ elements, ∃ st, e.style = some st ∧ st.bold = true := by
  obtain ⟨elements, he, hb⟩ := RenderHeading_shape r node blocks h
  refine ⟨elements, hb, ?_⟩
  exact RenderRichTextSectionElementsFrom_bold { r with insideHeader := true } rfl
    node.children [] elements (by simp) he

/-- C6: a successful `RenderParagraph`, `RenderTextBlock` or `RenderHeading` returns
exactly one block holding exactly one section, whose last element is the plain-text
element with content `"\n\n"` and nil style. -/
theorem paragraph_like_ends_with_separator (r : MyRenderer) (node : Node)
    (blocks : List RichTextBlock)
    (h : RenderParagraph r node = .ok blocks ∨ RenderTextBlock r node = .ok blocks ∨
      RenderHeading r node = .ok blocks) :
    ∃ elements : List RichTextSectionElement,
      blocks = [NewRichTextBlock "" [.Section (elements ++ [.TextElement "\n\n" none])]] := by
  rcases h with h | h | h
  · obtain ⟨elements, _, hb⟩ := RenderParagraph_shape r node blocks h
    exact ⟨elements, hb⟩
  · obtain ⟨elements, _, hb⟩ := RenderTextBlock_shape r node blocks h
    exact ⟨elements, hb⟩
  · obtain ⟨elements, _, hb⟩ := RenderHeading_shape r node blocks h
    exact ⟨elements, hb⟩

/-- C7: when `RenderDocument` succeeds, the output blocks correspond one to one and in
order to the children of the document: the i-th child renders, by `RenderBlock`, to
exactly the i-th output block. -/
theorem RenderDocument_blocks_in_order (r : MyRenderer) (node : Node)
    (blocks : List RichTextBlock) (h : RenderDocument r node = .ok blocks) :
    List.Forall₂ (fun child b => RenderBlock r child = .ok [b]) node.children blocks := by
  unfold RenderDocument at h
  split at h
  · cases h
  · split at h
    · cases h
    · rename_i bs hbs
      cases h
      exact RenderBlocksFrom_pointwise r node.children _ hbs

/-- C8: when `RenderDocument` fails, `Render` returns the same failure and leaves the
target block set as it was. -/
theorem Render_failure_atomic (r : MyRenderer) (blockSet : List RichTextBlock) (node : Node)
    (e : Failure) (h : RenderDocument r node = .error e) :
    Render r blockSet node = (some e, blockSet) := by
  simp [Render, h]

/-- C9: on a node that is not a Document, `RenderDocument` returns the error
"ast is not a Document" whatever the children are; on a Document node it returns the
result of `RenderBlocks`. -/
theorem RenderDocument_kind_assertion (r : MyRenderer) (node : Node) :
    (node.kind ≠ KindDocument →
      RenderDocument r node = .error (.error "ast is not a Document")) ∧
    (node.kind = KindDocument → RenderDocument r node = RenderBlocks r node) := by
  constructor
  · intro hk
    simp [RenderDocument, AssertKind, hk, KindName]
  · intro hk
    simp only [RenderDocument, AssertKind, hk]
    cases RenderBlocks r node <;> simp

/-- C10: on a Text node `RenderText` returns exactly one plain-text element; its
content is the node text, followed by one newline exactly when the soft or the hard
line-break flag is set, and its style is bold-only inside a heading and nil
otherwise. -/
theorem RenderText_element (r : MyRenderer) (node : Node) (hk : node.kind = KindText) :
    RenderText r node = .ok [.TextElement
      (if node.attrs.softLineBreak = true ∨ node.attrs.hardLineBreak = true
        then node.attrs.text ++ "\n" else node.attrs.text)
      (if r.insideHeader = true then some { bold := true, italic := false } else none)] := by
  simp [RenderText, AssertKind, hk]

/-! ## First failure -/

/-- A failing child fails the `RenderBlocks` loop when the children before it
rendered. -/
theorem RenderBlocksFrom_fails (r : MyRenderer) (c : Node) (post : List Node) (e : Failure)
    (hc : RenderBlock r c = .error e) (pre : List Node) :
    ∀ acc : List RichTextBlock, (∃ blocks, RenderBlocksFrom r acc pre = .ok blocks) →
      RenderBlocksFrom r acc (pre ++ c :: post) = .error e := by
  induction pre with
  | nil =>
    intro acc _
    simp [RenderBlocksFrom_cons, hc]
  | cons p pre ih =>
    intro acc h
    obtain ⟨blocks, h⟩ := h
    rw [RenderBlocksFrom_cons] at h
    rw [List.cons_append, RenderBlocksFrom_cons]
    cases hp : RenderBlock r p with
    | error e' => rw [hp] at h; cases h
    | ok childBlocks =>
      rw [hp] at h
      exact ih (acc ++ childBlocks) ⟨blocks, h⟩

/-- A failing item fails the outer loop of `RenderList` when the items before it were
assembled. -/
theorem RenderListFrom_fails (r : MyRenderer) (style : RichTextListElementType) (item : Node)
    (post : List Node) (e : Failure) (hc : RenderBlocksFrom r [] item.children = .error e)
    (pre : List Node) :
    ∀ acc : ListAcc, (∃ acc', RenderListFrom r style acc pre = .ok acc') →
      RenderListFrom r style acc (pre ++ item :: post) = .error e := by
  induction pre with
  | nil =>
    intro acc _
    cases item with
    | mk k a cs =>
      simp only [Node.children] at hc
      simp [RenderListFrom, hc]
  | cons p pre ih =>
    intro acc h
    obtain ⟨acc', h⟩ := h
    cases p with
    | mk k a cs =>
      rw [List.cons_append]
      simp only [RenderListFrom] at h ⊢
      cases hp : RenderBlocksFrom r [] cs with
      | error e' => rw [hp] at h; cases h
      | ok block =>
        rw [hp] at h
        simp only [] at h ⊢
        cases hl : listBlocksLoop style (r.listLevel - 1) acc block with
        | error e' => rw [hl] at h; cases h
        | ok acc1 =>
          rw [hl] at h
          exact ih acc1 ⟨acc', h⟩

/-- The failure of the node a path reaches is the failure of the node the path
starts from. -/
theorem Reaches_fails {r r' : MyRenderer} {node target : Node} (h : Reaches r node r' target)
    (e : Failure) (he : RenderBlock r' target = .error e) : RenderBlock r node = .error e := by
  induction h with
  | here r node => exact he
  | quote r r' node target child pre post hk hl hch hpre _ ih =>
    have hchild := ih he
    have hloop := RenderBlocksFrom_fails _ child post e hchild pre [] hpre
    rw [RenderBlock_dispatch, hk]
    simp only [RenderBlockquote, AssertKind, hk, RenderBlocks, hch]
    simp [hl, hloop]
  | list r r' node target item child pre post ipre ipost hk hch hpre hich hipre _ ih =>
    have hchild := ih he
    have hitem := RenderBlocksFrom_fails _ child ipost e hchild ipre [] hipre
    rw [← hich] at hitem
    have hloop := RenderListFrom_fails _ (listStyle node) item post e hitem pre _ hpre
    rw [RenderBlock_dispatch, hk]
    simp only [RenderList, AssertKind, hk, hch]
    simp [hloop]

/-- The blockquote level does not decrease along a path. -/
theorem Reaches_blockquoteLevel_le {r r' : MyRenderer} {node target : Node}
    (h : Reaches r node r' target) : r.blockquoteLevel ≤ r'.blockquoteLevel := by
  induction h with
  | here r node => exact le_refl _
  | quote r r' node target child pre post _ _ _ _ _ ih =>
    simp only at ih
    omega
  | list r r' node target item child pre post ipre ipost _ _ _ _ _ _ ih =>
    simpa using ih

/-- A failing inline child fails the inline loop when the children before it
rendered. -/
theorem RenderRichTextSectionElementsFrom_fails (r : MyRenderer) (x : Node) (post : List Node)
    (e : Failure) (hx : RenderRichTextSectionElement r x = .error e) (pre : List Node) :
    ∀ acc : List RichTextSectionElement,
      (∃ elements, RenderRichTextSectionElementsFrom r acc pre = .ok elements) →
      RenderRichTextSectionElementsFrom r acc (pre ++ x :: post) = .error e := by
  induction pre with
  | nil =>
    intro acc _
    simp [RenderRichTextSectionElementsFrom, hx]
  | cons p pre ih =>
    intro acc h
    obtain ⟨elements, h⟩ := h
    rw [List.cons_append]
    simp only [RenderRichTextSectionElementsFrom] at h ⊢
    cases hp : RenderRichTextSectionElement r p with
    | error e' => rw [hp] at h; cases h
    | ok childElements =>
      rw [hp] at h
      exact ih (acc ++ childElements) ⟨elements, h⟩

/-- An inline node whose kind is none of Text, Emphasis, Link is rejected. -/
theorem RenderRichTextSectionElement_unsupported (r : MyRenderer) (x : Node)
    (h1 : x.kind ≠ KindText) (h2 : x.kind ≠ KindEmphasis) (h3 : x.kind ≠ KindLink) :
    RenderRichTextSectionElement r x =
      .error (.error ("unsupported node type: " ++ KindName x.kind)) := by
  unfold RenderRichTextSectionElement
  split <;> simp_all

/-- A node that exposes an unsupported kind fails with that kind's name. -/
theorem ExposesUnsupported_fails {r : MyRenderer} {node : Node} {k : NodeKind}
    (h : ExposesUnsupported r node k) :
    RenderBlock r node = .error (.error ("unsupported node type: " ++ KindName k)) := by
  rcases h with ⟨hk, h1, h2, h3, h4, h5⟩ | ⟨pre, post, x, hkind, hch, hpre, hk, h1, h2, h3⟩
  · subst hk
    rw [RenderBlock_dispatch]
    split <;> simp_all
  · subst hk
    obtain ⟨elements, hpre⟩ := hpre
    have hx := fun r' => RenderRichTextSectionElement_unsupported r' x h1 h2 h3
    rw [RenderBlock_dispatch]
    rcases hkind with hp | hp | hp
    · rw [hp] at hpre ⊢
      simp only [RenderParagraph, AssertKind, hp, RenderRichTextSectionElements, hch]
      simp at hpre
      simp [RenderRichTextSectionElementsFrom_fails r x post _ (hx r) pre [] ⟨elements, hpre⟩]
    · rw [hp] at hpre ⊢
      simp only [RenderTextBlock, AssertKind, hp, RenderRichTextSectionElements, hch]
      simp at hpre
      simp [RenderRichTextSectionElementsFrom_fails r x post _ (hx r) pre [] ⟨elements, hpre⟩]
    · rw [hp] at hpre ⊢
      simp only [RenderHeading, AssertKind, hp, RenderRichTextSectionElements, hch]
      simp at hpre
      simp [RenderRichTextSectionElementsFrom_fails _ x post _ (hx _) pre [] ⟨elements, hpre⟩]

/-! ## Claims C1 and C2 -/

/-- C1 (the code departs from the claim): on the tree of
`some _italic and **bold** text_ test` the paragraph renders to four elements, the
whole emphasis subtree collapsed into the single italic element
"italic and bold text", not to the six elements `TestBoldInsideItalic` expects. -/
theorem RenderEmphasis_collapses_subtree :
    RenderDocument CreateMyRenderer boldInsideItalic =
      .ok [NewRichTextBlock "" [.Section [
        .TextElement "some " none,
        .TextElement "italic and bold text" (some { bold := false, italic := true }),
        .TextElement " test" none,
        .TextElement "\n\n" none]]] ∧
    RenderDocument CreateMyRenderer boldInsideItalic ≠
      .ok [NewRichTextBlock "" [.Section boldInsideItalicExpected]] := by
  refine ⟨rfl, ?_⟩
  rw [show RenderDocument CreateMyRenderer boldInsideItalic =
      .ok [NewRichTextBlock "" [.Section [
        .TextElement "some " none,
        .TextElement "italic and bold text" (some { bold := false, italic := true }),
        .TextElement " test" none,
        .TextElement "\n\n" none]]] from rfl]
  simp [NewRichTextBlock, boldInsideItalicExpected]

/-- C2 (counterexample): a document holding an Image node inside a Link renders
without error; the image is not reported. -/
theorem image_inside_link_renders :
    RenderDocument CreateMyRenderer imageInsideLink =
      .ok [NewRichTextBlock "" [.Section [
        .LinkElement "http://example.com" "alt" none,
        .TextElement "\n\n" none]]] := by
  rfl

/-- C2 (amended): if the traversal of a document reaches, with everything rendered
before having succeeded, a block node that exposes a kind `k` without rendering rule
(the block node itself, or a direct inline child of a paragraph, text block or
heading), then `RenderDocument` fails with "unsupported node type: " followed by the
name of `k`, and returns no blocks.  The children of a Link are not visited: the
result of `RenderLink` is the same whatever they are. -/
theorem RenderDocument_unsupported_node :
    (∀ (r r' : MyRenderer) (doc top target : Node) (pre post : List Node) (k : NodeKind),
      doc.kind = KindDocument →
      doc.children = pre ++ top :: post →
      (∃ blocks, RenderBlocksFrom r [] pre = .ok blocks) →
      Reaches r top r' target →
      ExposesUnsupported r' target k →
      RenderDocument r doc = .error (.error ("unsupported node type: " ++ KindName k))) ∧
    (∀ (r : MyRenderer) (kind : NodeKind) (attrs : Attrs) (children children' : List Node),
      RenderLink r (.mk kind attrs children) = RenderLink r (.mk kind attrs children')) := by
  constructor
  · intro r r' doc top target pre post k hdoc hch hpre hreach hexp
    have htop := Reaches_fails hreach _ (ExposesUnsupported_fails hexp)
    have hloop := RenderBlocksFrom_fails r top post _ htop pre [] hpre
    simp [RenderDocument, AssertKind, hdoc, RenderBlocks, hch, hloop]
  · intro r kind attrs children children'
    simp [RenderLink, AssertKind, Node.kind, Node.attrs]

/-! ## Lists without sub-lists -/

theorem listElementsLoop_sections (style : RichTextListElementType) (indent : Int)
    (es : List RichTextElement) :
    ∀ acc acc' : ListAcc, (∀ e ∈ es, e.RichTextElementType ≠ RTEList) →
      listElementsLoop style indent acc es = .ok acc' →
      acc'.elements = acc.elements ∧ acc'.subElements = acc.subElements ++ es ∧
        ∀ e ∈ es, e.RichTextElementType = RTESection := by
  induction es with
  | nil =>
    intro acc acc' _ h
    simp [listElementsLoop] at h
    subst h; simp
  | cons x xs ih =>
    intro acc acc' hno h
    simp only [listElementsLoop] at h
    have hx : x.RichTextElementType ≠ RTEList := hno x (List.mem_cons_self _ _)
    cases hs : listElementStep style indent acc x with
    | error e => rw [hs] at h; cases h
    | ok acc1 =>
      rw [hs] at h
      have hxs := ih acc1 acc' (fun e he => hno e (List.mem_cons_of_mem _ he)) h
      cases x with
      | Section items =>
        simp [listElementStep, RichTextElement.RichTextElementType] at hs
        subst hs
        obtain ⟨h1, h2, h3⟩ := hxs
        refine ⟨h1, ?_, ?_⟩
        · simp [h2]
        · intro e he
          rcases List.mem_cons.mp he with rfl | he
          · rfl
          · exact h3 e he
      | ListPtr s i l => simp [RichTextElement.RichTextElementType] at hx
      | ListVal s i l => simp [RichTextElement.RichTextElementType] at hx
      | Quote items => simp [listElementStep, RichTextElement.RichTextElementType] at hs

theorem listBlocksLoop_sections (style : RichTextListElementType) (indent : Int)
    (bs : List RichTextBlock) :
    ∀ acc acc' : ListAcc, (∀ b ∈ bs, ∀ e ∈ b.elements, e.RichTextElementType ≠ RTEList) →
      listBlocksLoop style indent acc bs = .ok acc' →
      acc'.elements = acc.elements ∧
        acc'.subElements = acc.subElements ++ bs.flatMap (fun b => b.elements) ∧
        ∀ e ∈ bs.flatMap (fun b => b.elements), e.RichTextElementType = RTESection := by
  induction bs with
  | nil =>
    intro acc acc' _ h
    simp [listBlocksLoop] at h
    subst h; simp
  | cons b bs ih =>
    intro acc acc' hno h
    simp only [listBlocksLoop] at h
    cases hs : listElementsLoop style indent acc b.elements with
    | error e => rw [hs] at h; cases h
    | ok acc1 =>
      rw [hs] at h
      obtain ⟨h1, h2, h3⟩ := listElementsLoop_sections style indent b.elements acc acc1
        (hno b (List.mem_cons_self _ _)) hs
      obtain ⟨k1, k2, k3⟩ := ih acc1 acc' (fun b' hb' => hno b' (List.mem_cons_of_mem _ hb')) h
      refine ⟨by rw [k1, h1], ?_, ?_⟩
      · rw [k2, h2]; simp [List.flatMap_cons]
      · intro e he
        simp only [List.flatMap_cons, List.mem_append] at he
        rcases he with he | he
        · exact h3 e he
        · exact k3 e he

theorem RenderBlockquote_shape (r : MyRenderer) (node : Node) (blocks : List RichTextBlock)
    (h : RenderBlockquote r node = .ok blocks) :
    ∃ items, blocks = [NewRichTextBlock "" [.Quote items]] := by
  unfold RenderBlockquote at h
  cases ha : AssertKind node KindBlockquote with
  | error e => rw [ha] at h; cases h
  | ok u =>
    simp only [ha] at h
    split at h
    · cases h
    · split at h
      · cases h
      · unfold quoteFinish at h
        split at h
        · cases h
        · cases h; exact ⟨_, rfl⟩

/-- A block other than a list renders to no List element. -/
theorem RenderBlock_no_list_element (r : MyRenderer) (node : Node) (blocks : List RichTextBlock)
    (hk : node.kind ≠ KindList) (h : RenderBlock r node = .ok blocks) :
    ∀ b ∈ blocks, ∀ e ∈ b.elements, e.RichTextElementType ≠ RTEList := by
  rw [RenderBlock_dispatch] at h
  split at h
  · obtain ⟨_, _, hb⟩ := RenderHeading_shape r node blocks h
    subst hb; simp [NewRichTextBlock, RichTextElement.RichTextElementType]
  · obtain ⟨_, _, hb⟩ := RenderParagraph_shape r node blocks h
    subst hb; simp [NewRichTextBlock, RichTextElement.RichTextElementType]
  · obtain ⟨_, _, hb⟩ := RenderTextBlock_shape r node blocks h
    subst hb; simp [NewRichTextBlock, RichTextElement.RichTextElementType]
  · obtain ⟨_, hb⟩ := RenderBlockquote_shape r node blocks h
    subst hb; simp [NewRichTextBlock, RichTextElement.RichTextElementType]
  · rename_i hk'; exact absurd hk' hk
  · cases h

theorem RenderBlocksFrom_no_list_element (r : MyRenderer) (children : List Node)
    (blocks : List RichTextBlock) (hk : ∀ c ∈ children, c.kind ≠ KindList)
    (h : RenderBlocksFrom r [] children = .ok blocks) :
    ∀ b ∈ blocks, ∀ e ∈ b.elements, e.RichTextElementType ≠ RTEList := by
  have hf := RenderBlocksFrom_pointwise r children blocks h
  clear h
  induction hf with
  | nil => simp
  | @cons c b cs bs hc _ ih =>
    intro b' hb'
    rcases List.mem_cons.mp hb' with rfl | hb'
    · exact RenderBlock_no_list_element r c [b'] (hk c (List.mem_cons_self _ _)) hc b'
        (List.mem_singleton.mpr rfl)
    · exact ih (fun c' hc' => hk c' (List.mem_cons_of_mem _ hc')) b' hb'

theorem RenderListFrom_flat (r : MyRenderer) (style : RichTextListElementType)
    (children : List Node) :
    ∀ acc acc' : ListAcc,
      (∀ item ∈ children, ∀ c ∈ item.children, c.kind ≠ KindList) →
      RenderListFrom r style acc children = .ok acc' →
      ∃ rendered : List (List RichTextBlock),
        List.Forall₂ (fun item bs => RenderBlocks r item = .ok bs) children rendered ∧
        acc'.elements = acc.elements ∧
        acc'.subElements = acc.subElements ++ renderedElements rendered ∧
        ∀ e ∈ renderedElements rendered, e.RichTextElementType = RTESection := by
  induction children with
  | nil =>
    intro acc acc' _ h
    simp [RenderListFrom] at h
    subst h
    exact ⟨[], List.Forall₂.nil, rfl, by simp [renderedElements], by simp [renderedElements]⟩
  | cons item rest ih =>
    intro acc acc' hflat h
    cases item with
    | mk k a cs =>
      simp only [RenderListFrom] at h
      cases hb : RenderBlocksFrom r [] cs with
      | error e => rw [hb] at h; cases h
      | ok block =>
        rw [hb] at h
        simp only [] at h
        cases hl : listBlocksLoop style (r.listLevel - 1) acc block with
        | error e => rw [hl] at h; cases h
        | ok acc1 =>
          rw [hl] at h
          have hno := RenderBlocksFrom_no_list_element r cs block
            (hflat (.mk k a cs) (List.mem_cons_self _ _)) hb
          obtain ⟨h1, h2, h3⟩ := listBlocksLoop_sections style _ block acc acc1 hno hl
          obtain ⟨rendered, k0, k1, k2, k3⟩ :=
            ih acc1 acc' (fun i hi => hflat i (List.mem_cons_of_mem _ hi)) h
          refine ⟨block :: rendered, List.Forall₂.cons hb k0, by rw [k1, h1], ?_, ?_⟩
          · rw [k2, h2]
            simp [renderedElements, List.flatMap_append]
          · intro e he
            simp only [renderedElements, List.flatten_cons, List.flatMap_append, List.mem_append] at he
            rcases he with he | he
            · exact h3 e he
            · exact k3 e he

/-- C3 (counterexample): a document with a blockquote nested in a blockquote, placed
after a paragraph holding an image, fails with the unsupported-node error, not with
the nested-blockquote error. -/
theorem nested_quote_after_image_reports_image :
    RenderDocument CreateMyRenderer imageBeforeNestedQuote =
      .error (.error "unsupported node type: Image") ∧
    RenderDocument CreateMyRenderer imageBeforeNestedQuote ≠
      .error (.error "nested blockquotes are not supported") := by
  refine ⟨rfl, ?_⟩
  rw [show RenderDocument CreateMyRenderer imageBeforeNestedQuote =
    .error (.error "unsupported node type: Image") from rfl]
  simp

/-- C3 (amended): `RenderBlockquote` entered with `blockquoteLevel > 0` returns the
nested-blockquote error for every Blockquote node; and `RenderDocument` returns that
error for every document whose traversal reaches, with everything rendered before
having succeeded, a Blockquote inside a Blockquote (directly or through list
items). -/
theorem nested_blockquote_fails :
    (∀ (r : MyRenderer) (node : Node), node.kind = KindBlockquote → r.blockquoteLevel > 0 →
      RenderBlockquote r node = .error (.error "nested blockquotes are not supported")) ∧
    (∀ (r rq r' : MyRenderer) (doc top outer child inner : Node)
      (pre post qpre qpost : List Node),
      doc.kind = KindDocument → 0 ≤ r.blockquoteLevel →
      doc.children = pre ++ top :: post →
      (∃ blocks, RenderBlocksFrom r [] pre = .ok blocks) →
      Reaches r top rq outer →
      outer.kind = KindBlockquote →
      outer.children = qpre ++ child :: qpost →
      (∃ blocks, RenderBlocksFrom { rq with blockquoteLevel := rq.blockquoteLevel + 1 } [] qpre
        = .ok blocks) →
      Reaches { rq with blockquoteLevel := rq.blockquoteLevel + 1 } child r' inner →
      inner.kind = KindBlockquote →
      RenderDocument r doc = .error (.error "nested blockquotes are not supported")) := by
  have hfirst : ∀ (r : MyRenderer) (node : Node), node.kind = KindBlockquote →
      r.blockquoteLevel > 0 →
      RenderBlockquote r node = .error (.error "nested blockquotes are not supported") := by
    intro r node hk hl
    simp [RenderBlockquote, AssertKind, hk, hl]
  refine ⟨hfirst, ?_⟩
  intro r rq r' doc top outer child inner pre post qpre qpost hdoc h0 hch hpre hreach houter
    hqch hqpre hreach' hinner
  have hl1 := Reaches_blockquoteLevel_le hreach
  have hl2 := Reaches_blockquoteLevel_le hreach'
  simp only at hl2
  have hinnerfail : RenderBlock r' inner =
      .error (.error "nested blockquotes are not supported") := by
    rw [RenderBlock_dispatch, hinner]
    exact hfirst r' inner hinner (by omega)
  have hchild := Reaches_fails hreach' _ hinnerfail
  have hloop := RenderBlocksFrom_fails _ child qpost _ hchild qpre [] hqpre
  have houterfail : RenderBlock rq outer =
      .error (.error "nested blockquotes are not supported") := by
    rw [RenderBlock_dispatch, houter]
    simp only [RenderBlockquote, AssertKind, houter, RenderBlocks, hqch]
    simp [hloop]
  have htop := Reaches_fails hreach _ houterfail
  have hdocloop := RenderBlocksFrom_fails r top post _ htop pre [] hpre
  simp [RenderDocument, AssertKind, hdoc, RenderBlocks, hch, hdocloop]

/-- C4 (counterexample): a list whose only item is empty renders to a block without
any element, not to a block holding one List element. -/
theorem empty_item_list_renders_no_element :
    RenderList CreateMyRenderer emptyItemList = .ok [NewRichTextBlock "" []] := by
  rfl

/-- C4 (amended): when `RenderList` succeeds on a list none of whose items has a list
among its blocks, every element rendered from the items is a Section; if there is at
least one, the result is one block holding exactly one List element (of the list's
style, at the level the list was entered with) whose items are those Sections in
order; if there is none, the result is one block without elements. -/
theorem RenderList_without_sublists (r : MyRenderer) (node : Node)
    (blocks : List RichTextBlock)
    (hflat : ∀ item ∈ node.children, ∀ c ∈ item.children, c.kind ≠ KindList)
    (h : RenderList r node = .ok blocks) :
    ∃ rendered : List (List RichTextBlock),
      List.Forall₂
        (fun item bs => RenderBlocks { r with listLevel := r.listLevel + 1 } item = .ok bs)
        node.children rendered ∧
      (∀ e ∈ renderedElements rendered, e.RichTextElementType = RTESection) ∧
      (renderedElements rendered ≠ [] →
        blocks = [NewRichTextBlock ""
          [.ListVal (listStyle node) r.listLevel (renderedElements rendered)]]) ∧
      (renderedElements rendered = [] → blocks = [NewRichTextBlock "" []]) := by
  unfold RenderList at h
  cases ha : AssertKind node KindList with
  | error e => rw [ha] at h; cases h
  | ok u =>
    simp only [ha] at h
    cases hl : RenderListFrom { r with listLevel := r.listLevel + 1 } (listStyle node)
        { elements := [], subElements := [] } node.children with
    | error e => rw [hl] at h; cases h
    | ok acc =>
      rw [hl] at h
      obtain ⟨rendered, k0, k1, k2, k3⟩ := RenderListFrom_flat _ _ node.children _ acc hflat hl
      simp only [List.nil_append] at k1 k2
      refine ⟨rendered, k0, k3, ?_, ?_⟩
      · intro hne
        have hlen : 0 < (renderedElements rendered).length := List.length_pos.mpr hne
        cases h
        simp [listFinish, hlen, k1, k2]
      · intro hnil
        cases h
        simp [listFinish, k1, k2, hnil]

/-- Witness of C2 (amended): a table in the second item of a list. -/
theorem RenderDocument_unsupported_node_witness :
    RenderDocument CreateMyRenderer tableInListItem =
      .error (.error ("unsupported node type: " ++ KindName KindTable)) :=
  RenderDocument_unsupported_node.1 CreateMyRenderer
    { insideHeader := false, blockquoteLevel := 0, listLevel := 1 }
    tableInListItem
    (.mk KindList {} [
      .mk KindListItem {} [.mk KindTextBlock {} [textNode "one"]],
      .mk KindListItem {} [.mk KindTextBlock {} [textNode "two"], .mk KindTable {} []]])
    (.mk KindTable {} [])
    [.mk KindParagraph {} [textNode "intro"]] [] KindTable rfl rfl ⟨_, rfl⟩
    (Reaches.list _ _ _ _
      (.mk KindListItem {} [.mk KindTextBlock {} [textNode "two"], .mk KindTable {} []])
      (.mk KindTable {} [])
      [.mk KindListItem {} [.mk KindTextBlock {} [textNode "one"]]] []
      [.mk KindTextBlock {} [textNode "two"]] []
      rfl rfl ⟨_, rfl⟩ rfl ⟨_, rfl⟩ (Reaches.here _ _))
    (Or.inl ⟨rfl, by decide, by decide, by decide, by decide, by decide⟩)

/-- Witness of C3 (amended): a blockquote in a list item of a blockquote. -/
theorem nested_blockquote_fails_witness :
    RenderBlockquote { insideHeader := false, blockquoteLevel := 1, listLevel := 0 }
        (.mk KindBlockquote {} [.mk KindParagraph {} [textNode "inner"]]) =
      .error (.error "nested blockquotes are not supported") ∧
    RenderDocument CreateMyRenderer quoteInListInQuote =
      .error (.error "nested blockquotes are not supported") :=
  ⟨nested_blockquote_fails.1 _ _ rfl (by decide),
   nested_blockquote_fails.2 CreateMyRenderer CreateMyRenderer
    { insideHeader := false, blockquoteLevel := 1, listLevel := 1 }
    quoteInListInQuote
    (.mk KindBlockquote {} [
      .mk KindParagraph {} [textNode "outer"],
      .mk KindList {} [
        .mk KindListItem {} [
          .mk KindTextBlock {} [textNode "item"],
          .mk KindBlockquote {} [.mk KindParagraph {} [textNode "inner"]]]]])
    (.mk KindBlockquote {} [
      .mk KindParagraph {} [textNode "outer"],
      .mk KindList {} [
        .mk KindListItem {} [
          .mk KindTextBlock {} [textNode "item"],
          .mk KindBlockquote {} [.mk KindParagraph {} [textNode "inner"]]]]])
    (.mk KindList {} [
        .mk KindListItem {} [
          .mk KindTextBlock {} [textNode "item"],
          .mk KindBlockquote {} [.mk KindParagraph {} [textNode "inner"]]]])
    (.mk KindBlockquote {} [.mk KindParagraph {} [textNode "inner"]])
    [.mk KindParagraph {} [textNode "intro"]] []
    [.mk KindParagraph {} [textNode "outer"]] []
    rfl (by decide) rfl ⟨_, rfl⟩ (Reaches.here _ _) rfl rfl ⟨_, rfl⟩
    (Reaches.list _ _ _ _
      (.mk KindListItem {} [
          .mk KindTextBlock {} [textNode "item"],
          .mk KindBlockquote {} [.mk KindParagraph {} [textNode "inner"]]])
      (.mk KindBlockquote {} [.mk KindParagraph {} [textNode "inner"]])
      [] [] [.mk KindTextBlock {} [textNode "item"]] []
      rfl rfl ⟨_, rfl⟩ rfl ⟨_, rfl⟩ (Reaches.here _ _))
    rfl⟩

/-- Witness of C4 (amended): a bullet list of two plain items. -/
theorem RenderList_without_sublists_witness :
    RenderList CreateMyRenderer flatList =
      .ok [NewRichTextBlock "" [.ListVal RTEListBullet 0 [
        .Section [.TextElement "one" none, .TextElement "\n\n" none],
        .Section [.TextElement "two" none, .TextElement "\n\n" none]]]] ∧
    ∃ rendered : List (List RichTextBlock),
      List.Forall₂
        (fun item bs => RenderBlocks
          { CreateMyRenderer with listLevel := CreateMyRenderer.listLevel + 1 } item = .ok bs)
        flatList.children rendered ∧
      (∀ e ∈ renderedElements rendered, e.RichTextElementType = RTESection) ∧
      (renderedElements rendered ≠ [] →
        [NewRichTextBlock "" [.ListVal RTEListBullet 0 [
          .Section [.TextElement "one" none, .TextElement "\n\n" none],
          .Section [.TextElement "two" none, .TextElement "\n\n" none]]]] =
        [NewRichTextBlock ""
          [.ListVal (listStyle flatList) CreateMyRenderer.listLevel
            (renderedElements rendered)]]) ∧
      (renderedElements rendered = [] →
        [NewRichTextBlock "" [.ListVal RTEListBullet 0 [
          .Section [.TextElement "one" none, .TextElement "\n\n" none],
          .Section [.TextElement "two" none, .TextElement "\n\n" none]]]] =
        [NewRichTextBlock "" []]) :=
  ⟨rfl, RenderList_without_sublists CreateMyRenderer flatList _
    (by simp [flatList, Node.children, Node.kind]) rfl⟩

/-- Witness of C5: a heading with a text, a link and an italic emphasis. -/
theorem RenderHeading_elements_bold_witness :
    RenderHeading CreateMyRenderer headingNode =
      .ok [NewRichTextBlock "" [.Section [
        .TextElement "Release " (some { bold := true }),
        .LinkElement "http://example.com" "notes" (some { bold := true }),
        .TextElement "draft" (some { bold := true, italic := true }),
        .TextElement "\n\n" none]]] ∧
    ∃ elements : List RichTextSectionElement,
      [NewRichTextBlock "" [.Section [
        .TextElement "Release " (some { bold := true }),
        .LinkElement "http://example.com" "notes" (some { bold := true }),
        .TextElement "draft" (some { bold := true, italic := true }),
        .TextElement "\n\n" none]]] =
        [NewRichTextBlock "" [.Section (elements ++ [separator])]] ∧
      ∀ e ∈ elements, ∃ st, e.style = some st ∧ st.bold = true :=
  ⟨rfl, RenderHeading_elements_bold CreateMyRenderer headingNode _ rfl⟩

/-- Witness of C6: a paragraph of two lines. -/
theorem paragraph_like_ends_with_separator_witness :
    RenderParagraph CreateMyRenderer twoLineParagraph =
      .ok [NewRichTextBlock "" [.Section [
        .TextElement "first\n" none, .TextElement "second" none,
        .TextElement "\n\n" none]]] ∧
    ∃ elements : List RichTextSectionElement,
      [NewRichTextBlock "" [.Section [
        .TextElement "first\n" none, .TextElement "second" none,
        .TextElement "\n\n" none]]] =
        [NewRichTextBlock "" [.Section (elements ++ [.TextElement "\n\n" none])]] :=
  ⟨rfl, paragraph_like_ends_with_separator CreateMyRenderer twoLineParagraph _ (Or.inl rfl)⟩

/-- Witness of C7: a heading followed by a paragraph. -/
theorem RenderDocument_blocks_in_order_witness :
    List.Forall₂ (fun child b => RenderBlock CreateMyRenderer child = .ok [b])
      headingThenParagraph.children
      [ NewRichTextBlock "" [.Section [
          .TextElement "Release " (some { bold := true }),
          .LinkElement "http://example.com" "notes" (some { bold := true }),
          .TextElement "draft" (some { bold := true, italic := true }),
          .TextElement "\n\n" none]],
        NewRichTextBlock "" [.Section [
          .TextElement "first\n" none, .TextElement "second" none,
          .TextElement "\n\n" none]] ] :=
  RenderDocument_blocks_in_order CreateMyRenderer headingThenParagraph _ rfl

/-- Witness of C8: a failing document leaves a block set of one block as it was. -/
theorem Render_failure_atomic_witness :
    Render CreateMyRenderer [NewRichTextBlock "" []] imageDocument =
      (some (.error "unsupported node type: Image"), [NewRichTextBlock "" []]) :=
  Render_failure_atomic CreateMyRenderer [NewRichTextBlock "" []] imageDocument
    (.error "unsupported node type: Image") rfl

/-- Witness of C9: a paragraph is rejected as root, a document is passed on. -/
theorem RenderDocument_kind_assertion_witness :
    RenderDocument CreateMyRenderer twoLineParagraph =
      .error (.error "ast is not a Document") ∧
    RenderDocument CreateMyRenderer headingThenParagraph =
      RenderBlocks CreateMyRenderer headingThenParagraph :=
  ⟨(RenderDocument_kind_assertion CreateMyRenderer twoLineParagraph).1 (by decide),
   (RenderDocument_kind_assertion CreateMyRenderer headingThenParagraph).2 rfl⟩

/-- Witness of C10: a text with a soft line break inside a heading. -/
theorem RenderText_element_witness :
    RenderText { insideHeader := true, blockquoteLevel := 0, listLevel := 0 }
        (.mk KindText { text := "first", softLineBreak := true } []) =
      .ok [.TextElement "first\n" (some { bold := true, italic := false })] :=
  RenderText_element { insideHeader := true, blockquoteLevel := 0, listLevel := 0 }
    (.mk KindText { text := "first", softLineBreak := true } []) rfl

/-! ## Claims C11 to C20 -/

/-- C11: on a Link node `RenderLink` returns exactly one link element with the
destination and the text of the node; its style is bold-only inside a heading and nil
otherwise, so its italic flag is never set. -/
theorem RenderLink_element (r : MyRenderer) (node : Node) (hk : node.kind = KindLink) :
    RenderLink r node = .ok [.LinkElement node.attrs.destination node.attrs.text
      (if r.insideHeader = true then some { bold := true, italic := false } else none)] := by
  simp [RenderLink, AssertKind, hk]

/-- Witness of C11: a link holding italic text, inside a heading. -/
theorem RenderLink_element_witness :
    RenderLink { insideHeader := true, blockquoteLevel := 0, listLevel := 0 } linkNode =
      .ok [.LinkElement "http://example.com" "notes" (some { bold := true, italic := false })] :=
  RenderLink_element { insideHeader := true, blockquoteLevel := 0, listLevel := 0 } linkNode rfl

/-- C13 (the code departs from the claim): on a bullet list nested three levels deep,
made of text blocks and lists only, `RenderList` ends in a run-time panic: the
assertion `element.(slack.RichTextList)` meets the `*slack.RichTextList` built by the
mid-list flush of the nested call.  The same list nested two levels deep renders. -/
theorem RenderList_three_levels_panics :
    RenderList CreateMyRenderer threeLevelList = .error listAssertionPanic ∧
    RenderList CreateMyRenderer twoLevelList =
      .ok [NewRichTextBlock "" [
        .ListPtr RTEListBullet 0 [.Section [.TextElement "a" none, .TextElement "\n\n" none]],
        .ListVal RTEListBullet 1 [.Section [.TextElement "b" none, .TextElement "\n\n" none]]]] :=
  ⟨rfl, rfl⟩

/-- C20: when `RenderDocument` succeeds with blocks `B`, `Render` returns no error and
leaves the target block set equal to its previous value followed by `B`; a second
successful call appends its blocks after those of the first. -/
theorem Render_appends (r : MyRenderer) (blockSet blocks : List RichTextBlock) (node : Node)
    (h : RenderDocument r node = .ok blocks) :
    Render r blockSet node = (none, blockSet ++ blocks) ∧
    ∀ (node' : Node) (blocks' : List RichTextBlock), RenderDocument r node' = .ok blocks' →
      Render r (Render r blockSet node).2 node' = (none, blockSet ++ blocks ++ blocks') := by
  have h1 : Render r blockSet node = (none, blockSet ++ blocks) := by simp [Render, h]
  refine ⟨h1, ?_⟩
  intro node' blocks' h'
  simp [Render, h, h']

/-- Witness of C20: two calls on a block set that already holds one block. -/
theorem Render_appends_witness :
    Render CreateMyRenderer [NewRichTextBlock "" []] headingThenParagraph =
      (none, [NewRichTextBlock "" []] ++
        [ NewRichTextBlock "" [.Section [
            .TextElement "Release " (some { bold := true }),
            .LinkElement "http://example.com" "notes" (some { bold := true }),
            .TextElement "draft" (some { bold := true, italic := true }),
            .TextElement "\n\n" none]],
          NewRichTextBlock "" [.Section [
            .TextElement "first\n" none, .TextElement "second" none,
            .TextElement "\n\n" none]] ]) :=
  (Render_appends CreateMyRenderer [NewRichTextBlock "" []] _ headingThenParagraph rfl).1

/-! ## Quote assembly -/

theorem quoteElementsLoop_ok (es : List RichTextElement) :
    ∀ acc out : List RichTextSectionElement, quoteElementsLoop acc es = .ok out →
      (∀ e ∈ es, ∃ items, e = .Section items) ∧ out = acc ++ es.flatMap sectionElements := by
  induction es with
  | nil =>
    intro acc out h
    simp [quoteElementsLoop] at h
    subst h; simp
  | cons x xs ih =>
    intro acc out h
    cases x with
    | Section items =>
      simp only [quoteElementsLoop] at h
      obtain ⟨h1, h2⟩ := ih (acc ++ items) out h
      refine ⟨?_, ?_⟩
      · intro e he
        rcases List.mem_cons.mp he with rfl | he
        · exact ⟨items, rfl⟩
        · exact h1 e he
      · rw [h2]; simp [List.flatMap_cons, sectionElements]
    | ListPtr s i l => simp [quoteElementsLoop] at h
    | ListVal s i l => simp [quoteElementsLoop] at h
    | Quote items => simp [quoteElementsLoop] at h

theorem quoteBlocksLoop_ok (bs : List RichTextBlock) :
    ∀ acc out : List RichTextSectionElement, quoteBlocksLoop acc bs = .ok out →
      (∀ e ∈ blockElements bs, ∃ items, e = .Section items) ∧
        out = acc ++ (blockElements bs).flatMap sectionElements := by
  induction bs with
  | nil =>
    intro acc out h
    simp [quoteBlocksLoop] at h
    subst h; simp [blockElements]
  | cons b bs ih =>
    intro acc out h
    simp only [quoteBlocksLoop] at h
    cases hb : quoteElementsLoop acc b.elements with
    | error e => rw [hb] at h; cases h
    | ok acc1 =>
      rw [hb] at h
      obtain ⟨h1, h2⟩ := quoteElementsLoop_ok b.elements acc acc1 hb
      obtain ⟨k1, k2⟩ := ih acc1 out h
      refine ⟨?_, ?_⟩
      · intro e he
        simp only [blockElements, List.flatMap_cons, List.mem_append] at he
        rcases he with he | he
        · exact h1 e he
        · exact k1 e he
      · rw [k2, h2]
        simp [blockElements, List.flatMap_cons, List.flatMap_append]

/-- The quote loop over elements: it succeeds on sections only and otherwise fails
naming the type of a rejected element. -/
theorem quoteElementsLoop_cases (es : List RichTextElement) :
    ∀ acc : List RichTextSectionElement,
      ((∀ e ∈ es, e.RichTextElementType = RTESection) ∧
        ∃ out, quoteElementsLoop acc es = .ok out) ∨
      (∃ e ∈ es, e.RichTextElementType ≠ RTESection ∧
        quoteElementsLoop acc es =
          .error (.error ("unsupported element type: " ++ e.RichTextElementType.str))) := by
  induction es with
  | nil => intro acc; left; simp [quoteElementsLoop]
  | cons x xs ih =>
    intro acc
    cases x with
    | Section items =>
      rcases ih (acc ++ items) with ⟨h1, out, h2⟩ | ⟨e, he, h1, h2⟩
      · left
        refine ⟨?_, out, by simpa [quoteElementsLoop] using h2⟩
        intro e he
        rcases List.mem_cons.mp he with rfl | he
        · rfl
        · exact h1 e he
      · right
        exact ⟨e, List.mem_cons_of_mem _ he, h1, by simpa [quoteElementsLoop] using h2⟩
    | ListPtr s i l =>
      right
      exact ⟨_, List.mem_cons_self _ _, by simp [RichTextElement.RichTextElementType],
        by simp [quoteElementsLoop]⟩
    | ListVal s i l =>
      right
      exact ⟨_, List.mem_cons_self _ _, by simp [RichTextElement.RichTextElementType],
        by simp [quoteElementsLoop]⟩
    | Quote items =>
      right
      exact ⟨_, List.mem_cons_self _ _, by simp [RichTextElement.RichTextElementType],
        by simp [quoteElementsLoop]⟩

theorem quoteBlocksLoop_cases (bs : List RichTextBlock) :
    ∀ acc : List RichTextSectionElement,
      ((∀ e ∈ blockElements bs, e.RichTextElementType = RTESection) ∧
        ∃ out, quoteBlocksLoop acc bs = .ok out) ∨
      (∃ e ∈ blockElements bs, e.RichTextElementType ≠ RTESection ∧
        quoteBlocksLoop acc bs =
          .error (.error ("unsupported element type: " ++ e.RichTextElementType.str))) := by
  induction bs with
  | nil => intro acc; left; simp [quoteBlocksLoop, blockElements]
  | cons b bs ih =>
    intro acc
    rcases quoteElementsLoop_cases b.elements acc with ⟨h1, out, h2⟩ | ⟨e, he, h1, h2⟩
    · rcases ih out with ⟨k1, out', k2⟩ | ⟨e, he, k1, k2⟩
      · left
        refine ⟨?_, out', by simp [quoteBlocksLoop, h2, k2]⟩
        intro e he
        simp only [blockElements, List.flatMap_cons, List.mem_append] at he
        rcases he with he | he
        · exact h1 e he
        · exact k1 e he
      · right
        refine ⟨e, ?_, k1, by simp [quoteBlocksLoop, h2, k2]⟩
        simp only [blockElements, List.flatMap_cons, List.mem_append]
        exact Or.inr he
    · right
      refine ⟨e, ?_, h1, by simp [quoteBlocksLoop, h2]⟩
      simp only [blockElements, List.flatMap_cons, List.mem_append]
      exact Or.inl he

/-- The body of `RenderBlockquote` on a Blockquote node entered outside any quote. -/
theorem RenderBlockquote_enter (r : MyRenderer) (node : Node) (hk : node.kind = KindBlockquote)
    (hl : ¬ r.blockquoteLevel > 0) :
    RenderBlockquote r node =
      match RenderBlocks { r with blockquoteLevel := r.blockquoteLevel + 1 } node with
      | .error e => .error e
      | .ok blocks => quoteFinish blocks := by
  simp [RenderBlockquote, AssertKind, hk, hl]

/-- The shape of every successful result of `RenderBlockquote`. -/
theorem RenderBlockquote_flattens_sections_aux (r : MyRenderer) (node : Node)
    (blocks : List RichTextBlock) (h : RenderBlockquote r node = .ok blocks) :
    ∃ rendered : List RichTextBlock,
      RenderBlocks { r with blockquoteLevel := r.blockquoteLevel + 1 } node = .ok rendered ∧
      (∀ e ∈ blockElements rendered, ∃ items, e = .Section items) ∧
      blocks = [NewRichTextBlock ""
        [.Quote ((blockElements rendered).flatMap sectionElements)]] := by
  unfold RenderBlockquote at h
  cases ha : AssertKind node KindBlockquote with
  | error e => rw [ha] at h; cases h
  | ok u =>
    simp only [ha] at h
    split at h
    · cases h
    · cases hr : RenderBlocks { r with blockquoteLevel := r.blockquoteLevel + 1 } node with
      | error e => simp only [hr] at h; cases h
      | ok rendered =>
        simp only [hr] at h
        unfold quoteFinish at h
        cases hq : quoteBlocksLoop [] rendered with
        | error e => rw [hq] at h; cases h
        | ok out =>
          rw [hq] at h
          obtain ⟨h1, h2⟩ := quoteBlocksLoop_ok rendered [] out hq
          refine ⟨rendered, rfl, h1, ?_⟩
          cases h
          simp [h2]

/-- C12: when `RenderBlockquote` succeeds, every element rendered from the block
children of the quote is a Section, and the result is exactly one block holding
exactly one Quote element whose items are the inline items of those Sections, in
order (the trailing separator of each child included). -/
theorem RenderBlockquote_flattens_sections (r : MyRenderer) (node : Node)
    (blocks : List RichTextBlock) (h : RenderBlockquote r node = .ok blocks) :
    ∃ rendered : List RichTextBlock,
      RenderBlocks { r with blockquoteLevel := r.blockquoteLevel + 1 } node = .ok rendered ∧
      (∀ e ∈ blockElements rendered, ∃ items, e = .Section items) ∧
      blocks = [NewRichTextBlock ""
        [.Quote ((blockElements rendered).flatMap sectionElements)]] :=
  RenderBlockquote_flattens_sections_aux r node blocks h

/-- Witness of C12: a quote of two paragraphs. -/
theorem RenderBlockquote_flattens_sections_witness :
    RenderBlockquote CreateMyRenderer quoteOfParagraphs =
      .ok [NewRichTextBlock "" [.Quote [
        .TextElement "first" none, .TextElement "\n\n" none,
        .TextElement "second" none, .TextElement "\n\n" none]]] ∧
    ∃ rendered : List RichTextBlock,
      RenderBlocks { CreateMyRenderer with
          blockquoteLevel := CreateMyRenderer.blockquoteLevel + 1 } quoteOfParagraphs
        = .ok rendered ∧
      (∀ e ∈ blockElements rendered, ∃ items, e = .Section items) ∧
      [NewRichTextBlock "" [.Quote [
        .TextElement "first" none, .TextElement "\n\n" none,
        .TextElement "second" none, .TextElement "\n\n" none]]] =
      [NewRichTextBlock "" [.Quote ((blockElements rendered).flatMap sectionElements)]] :=
  ⟨rfl, RenderBlockquote_flattens_sections CreateMyRenderer quoteOfParagraphs _ rfl⟩

/-! ## List assembly -/

theorem listElementStep_assembles (style : RichTextListElementType) (indent : Int)
    (acc acc' : ListAcc) (seen : List RichTextElement) (e : RichTextElement)
    (hinv : Assembles style indent acc seen)
    (h : listElementStep style indent acc e = .ok acc') :
    Assembles style indent acc' (seen ++ [e]) := by
  obtain ⟨groups, h1, h2, h3, h4⟩ := hinv
  cases e with
  | Section items =>
    simp [listElementStep, RichTextElement.RichTextElementType] at h
    subst h
    refine ⟨groups, h1, ?_, h3, ?_⟩
    · simp [h2, interleaved]
    · intro s hs
      rcases List.mem_append.mp hs with hs | hs
      · exact h4 s hs
      · simp at hs; exact ⟨items, hs⟩
  | ListPtr s i l =>
    simp [listElementStep, RichTextElement.RichTextElementType] at h
  | ListVal s i l =>
    simp [listElementStep, RichTextElement.RichTextElementType] at h
    subst h
    refine ⟨groups ++ [(acc.subElements, .ListVal s i l)], ?_, ?_, ?_, ?_⟩
    · simp [h1, List.flatMap_append]
    · simp [h2, interleaved, List.flatMap_append]
    · intro g hg
      rcases List.mem_append.mp hg with hg | hg
      · exact h3 g hg
      · simp at hg
        subst hg
        exact ⟨h4, s, i, l, rfl⟩
    · simp
  | Quote items =>
    simp [listElementStep, RichTextElement.RichTextElementType] at h

theorem listElementsLoop_assembles (style : RichTextListElementType) (indent : Int)
    (es : List RichTextElement) :
    ∀ (acc acc' : ListAcc) (seen : List RichTextElement), Assembles style indent acc seen →
      listElementsLoop style indent acc es = .ok acc' →
      Assembles style indent acc' (seen ++ es) := by
  induction es with
  | nil =>
    intro acc acc' seen hinv h
    simp [listElementsLoop] at h
    subst h; simpa using hinv
  | cons x xs ih =>
    intro acc acc' seen hinv h
    simp only [listElementsLoop] at h
    cases hs : listElementStep style indent acc x with
    | error e => rw [hs] at h; cases h
    | ok acc1 =>
      rw [hs] at h
      have := ih acc1 acc' (seen ++ [x])
        (listElementStep_assembles style indent acc acc1 seen x hinv hs) h
      simpa using this

theorem listBlocksLoop_assembles (style : RichTextListElementType) (indent : Int)
    (bs : List RichTextBlock) :
    ∀ (acc acc' : ListAcc) (seen : List RichTextElement), Assembles style indent acc seen →
      listBlocksLoop style indent acc bs = .ok acc' →
      Assembles style indent acc' (seen ++ blockElements bs) := by
  induction bs with
  | nil =>
    intro acc acc' seen hinv h
    simp [listBlocksLoop] at h
    subst h; simpa [blockElements] using hinv
  | cons b bs ih =>
    intro acc acc' seen hinv h
    simp only [listBlocksLoop] at h
    cases hs : listElementsLoop style indent acc b.elements with
    | error e => rw [hs] at h; cases h
    | ok acc1 =>
      rw [hs] at h
      have := ih acc1 acc' (seen ++ b.elements)
        (listElementsLoop_assembles style indent b.elements acc acc1 seen hinv hs) h
      simpa [blockElements, List.flatMap_cons] using this

theorem renderedElements_cons (block : List RichTextBlock) (rendered : List (List RichTextBlock)) :
    renderedElements (block :: rendered) = blockElements block ++ renderedElements rendered := by
  simp [renderedElements, blockElements, List.flatMap_append]

theorem RenderListFrom_assembles (r : MyRenderer) (style : RichTextListElementType)
    (children : List Node) :
    ∀ (acc acc' : ListAcc) (seen : List RichTextElement),
      Assembles style (r.listLevel - 1) acc seen →
      RenderListFrom r style acc children = .ok acc' →
      ∃ rendered : List (List RichTextBlock),
        List.Forall₂ (fun item bs => RenderBlocks r item = .ok bs) children rendered ∧
        Assembles style (r.listLevel - 1) acc' (seen ++ renderedElements rendered) := by
  induction children with
  | nil =>
    intro acc acc' seen hinv h
    simp [RenderListFrom] at h
    subst h
    exact ⟨[], List.Forall₂.nil, by simpa [renderedElements] using hinv⟩
  | cons item rest ih =>
    intro acc acc' seen hinv h
    cases item with
    | mk k a cs =>
      simp only [RenderListFrom] at h
      cases hb : RenderBlocksFrom r [] cs with
      | error e => rw [hb] at h; cases h
      | ok block =>
        rw [hb] at h
        simp only [] at h
        cases hl : listBlocksLoop style (r.listLevel - 1) acc block with
        | error e => rw [hl] at h; cases h
        | ok acc1 =>
          rw [hl] at h
          have hinv1 := listBlocksLoop_assembles style _ block acc acc1 seen hinv hl
          obtain ⟨rendered, k0, k1⟩ := ih acc1 acc' _ hinv1 h
          refine ⟨block :: rendered, List.Forall₂.cons hb k0, ?_⟩
          rw [renderedElements_cons, ← List.append_assoc]
          exact k1

/-- The shape of every successful result of `RenderList`. -/
theorem RenderList_assembled (r : MyRenderer) (node : Node) (blocks : List RichTextBlock)
    (h : RenderList r node = .ok blocks) :
    ∃ (rendered : List (List RichTextBlock)) (groups : List ListGroup)
      (final : List RichTextElement),
      List.Forall₂
        (fun item bs => RenderBlocks { r with listLevel := r.listLevel + 1 } item = .ok bs)
        node.children rendered ∧
      blocks = [NewRichTextBlock "" (assembleOutput (listStyle node) r.listLevel groups final)] ∧
      renderedElements rendered = interleaved groups final ∧
      GroupsWellFormed groups ∧
      ∀ s ∈ final, ∃ items, s = .Section items := by
  unfold RenderList at h
  cases ha : AssertKind node KindList with
  | error e => rw [ha] at h; cases h
  | ok u =>
    simp only [ha] at h
    cases hl : RenderListFrom { r with listLevel := r.listLevel + 1 } (listStyle node)
        { elements := [], subElements := [] } node.children with
    | error e => rw [hl] at h; cases h
    | ok acc =>
      rw [hl] at h
      have hinit : Assembles (listStyle node)
          (({ r with listLevel := r.listLevel + 1 } : MyRenderer).listLevel - 1)
          { elements := [], subElements := [] } [] :=
        ⟨[], by simp, by simp [interleaved], by simp [GroupsWellFormed], by simp⟩
      obtain ⟨rendered, k0, groups, g1, g2, g3, g4⟩ :=
        RenderListFrom_assembles _ _ node.children _ acc [] hinit hl
      refine ⟨rendered, groups, acc.subElements, k0, ?_, by simpa using g2, g3, g4⟩
      cases h
      simp only [listFinish, assembleOutput, g1, add_sub_cancel_right]
      split <;> simp

theorem flattenOwn_assembleOutput (style : RichTextListElementType) (indent : Int)
    (final : List RichTextElement) (groups : List ListGroup) :
    flattenOwn (assembleOutput style indent groups final) = interleaved groups final := by
  induction groups with
  | nil =>
    cases final with
    | nil => simp [assembleOutput, interleaved, flattenOwn]
    | cons x xs => simp [assembleOutput, interleaved, flattenOwn]
  | cons g gs ih =>
    simp only [assembleOutput, interleaved, List.flatMap_cons, List.cons_append,
      List.nil_append, List.append_assoc] at ih ⊢
    simp only [flattenOwn, List.singleton_append]
    rw [ih]

/-- C14: when `RenderList` succeeds, flattening the returned elements (each List
element built by `RenderList` replaced by its items, each nested List element kept in
place) gives exactly the elements rendered from the items of the list, in order. -/
theorem RenderList_preserves_order (r : MyRenderer) (node : Node)
    (blocks : List RichTextBlock) (h : RenderList r node = .ok blocks) :
    ∃ (rendered : List (List RichTextBlock)) (out : List RichTextElement),
      List.Forall₂
        (fun item bs => RenderBlocks { r with listLevel := r.listLevel + 1 } item = .ok bs)
        node.children rendered ∧
      blocks = [NewRichTextBlock "" out] ∧
      flattenOwn out = renderedElements rendered := by
  obtain ⟨rendered, groups, final, h1, h2, h3, _, _⟩ := RenderList_assembled r node blocks h
  exact ⟨rendered, _, h1, h2, by rw [flattenOwn_assembleOutput, h3]⟩

/-- C15: when `RenderList` succeeds on a list entered with `listLevel = n`, the
returned elements are, for each nested element met, a List element built with the
style of the node (ordered when the node is ordered, bullet otherwise) and
`indent = n`, followed by that nested element, and at the end the List element of the
final flush with the same style and `indent = n`; the nested elements are elements
rendered from the items. -/
theorem RenderList_own_lists_style_indent (r : MyRenderer) (node : Node)
    (blocks : List RichTextBlock) (h : RenderList r node = .ok blocks) :
    ∃ (rendered : List (List RichTextBlock)) (groups : List ListGroup)
      (final : List RichTextElement),
      List.Forall₂
        (fun item bs => RenderBlocks { r with listLevel := r.listLevel + 1 } item = .ok bs)
        node.children rendered ∧
      renderedElements rendered = interleaved groups final ∧
      blocks = [NewRichTextBlock ""
        (assembleOutput (if node.attrs.isOrdered = true then RTEListOrdered else RTEListBullet)
          r.listLevel groups final)] := by
  obtain ⟨rendered, groups, final, h1, h2, h3, _, _⟩ := RenderList_assembled r node blocks h
  exact ⟨rendered, groups, final, h1, h3, by simpa [listStyle] using h2⟩

/-! ## Induction on the tree -/

theorem Node_induction (P : Node → Prop)
    (h : ∀ kind attrs children, (∀ c ∈ children, P c) → P (.mk kind attrs children))
    (n : Node) : P n :=
  @Node.rec P (fun l => ∀ c ∈ l, P c) (fun k a cs ih => h k a cs ih)
    (fun c hc => by cases hc)
    (fun hd tl ih1 ih2 c hc => by
      rcases List.mem_cons.mp hc with rfl | hc
      · exact ih1
      · exact ih2 c hc) n

theorem pointwise_exists_left {α β : Type} {R : α → β → Prop} {xs : List α} {ys : List β}
    (h : List.Forall₂ R xs ys) : ∀ y ∈ ys, ∃ x ∈ xs, R x y := by
  induction h with
  | nil => intro y hy; cases hy
  | @cons a b as bs hab _ ih =>
    intro y hy
    rcases List.mem_cons.mp hy with rfl | hy
    · exact ⟨a, List.mem_cons_self _ _, hab⟩
    · obtain ⟨x, hx, hr⟩ := ih y hy
      exact ⟨x, List.mem_cons_of_mem _ hx, hr⟩

theorem pointwise_exists_right {α β : Type} {R : α → β → Prop} {xs : List α} {ys : List β}
    (h : List.Forall₂ R xs ys) : ∀ x ∈ xs, ∃ y ∈ ys, R x y := by
  induction h with
  | nil => intro x hx; cases hx
  | @cons a b as bs hab _ ih =>
    intro x hx
    rcases List.mem_cons.mp hx with rfl | hx
    · exact ⟨b, List.mem_cons_self _ _, hab⟩
    · obtain ⟨y, hy, hr⟩ := ih x hx
      exact ⟨y, List.mem_cons_of_mem _ hy, hr⟩

/-- Every element of `interleaved groups final` that is the nested element of a group
is among the rendered elements. -/
theorem group_nested_mem_interleaved (groups : List ListGroup) (final : List RichTextElement)
    (g : ListGroup) (hg : g ∈ groups) : g.2 ∈ interleaved groups final := by
  simp only [interleaved, List.mem_append, List.mem_flatMap]
  exact Or.inl ⟨g, hg, by simp⟩

/-- Every element a successful block rule returns is flat, on the node and on its
children. -/
theorem RenderBlock_flat (n : Node) :
    (∀ (r : MyRenderer) (blocks : List RichTextBlock), RenderBlock r n = .ok blocks →
      ∀ b ∈ blocks, ∀ e ∈ b.elements, FlatElement e) ∧
    (∀ c ∈ n.children, ∀ (r : MyRenderer) (blocks : List RichTextBlock),
      RenderBlock r c = .ok blocks → ∀ b ∈ blocks, ∀ e ∈ b.elements, FlatElement e) := by
  induction n using Node_induction with
  | h kind attrs children ih =>
    refine ⟨?_, fun c hc => (ih c hc).1⟩
    intro r blocks h
    rw [RenderBlock_dispatch] at h
    split at h
    · obtain ⟨_, _, hb⟩ := RenderHeading_shape r _ blocks h
      subst hb; simp [NewRichTextBlock, FlatElement]
    · obtain ⟨_, _, hb⟩ := RenderParagraph_shape r _ blocks h
      subst hb; simp [NewRichTextBlock, FlatElement]
    · obtain ⟨_, _, hb⟩ := RenderTextBlock_shape r _ blocks h
      subst hb; simp [NewRichTextBlock, FlatElement]
    · obtain ⟨_, hb⟩ := RenderBlockquote_shape r _ blocks h
      subst hb; simp [NewRichTextBlock, FlatElement]
    · obtain ⟨rendered, groups, final, h1, h2, h3, h4, h5⟩ := RenderList_assembled r _ blocks h
      subst h2
      intro b hb e he
      simp only [List.mem_singleton] at hb
      subst hb
      simp only [NewRichTextBlock, assembleOutput, List.mem_append, List.mem_flatMap] at he
      rcases he with ⟨g, hg, he⟩ | he
      · simp only [List.mem_cons, List.mem_singleton, List.not_mem_nil, or_false] at he
        rcases he with rfl | rfl
        · exact (h4 g hg).1
        · have hmem : g.2 ∈ renderedElements rendered := by
            rw [h3]; exact group_nested_mem_interleaved groups final g hg
          simp only [renderedElements, List.mem_flatMap, List.mem_flatten] at hmem
          obtain ⟨b', ⟨bs, hbs, hb'⟩, hge⟩ := hmem
          obtain ⟨item, hitem, hren⟩ := pointwise_exists_left h1 bs hbs
          simp only [Node.children] at hitem
          have hpt := RenderBlocksFrom_pointwise _ item.children bs hren
          obtain ⟨gc, hgc, hgcr⟩ := pointwise_exists_left hpt b' hb'
          exact (ih item hitem).2 gc hgc _ _ hgcr b' (List.mem_singleton.mpr rfl) g.2 hge
      · split at he
        · simp only [List.mem_singleton] at he
          subst he
          exact h5
        · cases he
    · cases h

/-- C17: in every successful result of `RenderList`, the items of every List element
are all Sections: no List or Quote element stands inside a List element, a nested
list is an element of the block next to the lists built for its parent. -/
theorem RenderList_items_are_sections (r : MyRenderer) (node : Node)
    (blocks : List RichTextBlock) (h : RenderList r node = .ok blocks) :
    ∀ b ∈ blocks, ∀ e ∈ b.elements, ∀ style indent items,
      (e = .ListPtr style indent items ∨ e = .ListVal style indent items) →
      ∀ i ∈ items, ∃ elements, i = .Section elements := by
  have hk : node.kind = KindList := by
    unfold RenderList AssertKind at h
    by_contra hne
    simp [hne] at h
  have hb : RenderBlock r node = .ok blocks := by
    rw [RenderBlock_dispatch, hk]; exact h
  intro b hbm e he style indent items hshape
  have hflat := (RenderBlock_flat node).1 r blocks hb b hbm e he
  rcases hshape with rfl | rfl
  · exact hflat
  · exact hflat

/-! ## Quotes and lists -/

/-- Every element of a successful result of `RenderList` is a List element. -/
theorem RenderList_elements_are_lists (r : MyRenderer) (node : Node)
    (blocks : List RichTextBlock) (h : RenderList r node = .ok blocks) :
    ∀ b ∈ blocks, ∀ e ∈ b.elements, e.RichTextElementType = RTEList := by
  obtain ⟨rendered, groups, final, _, h2, _, h4, _⟩ := RenderList_assembled r node blocks h
  subst h2
  intro b hb e he
  simp only [List.mem_singleton] at hb
  subst hb
  simp only [NewRichTextBlock, assembleOutput, List.mem_append, List.mem_flatMap] at he
  rcases he with ⟨g, hg, he⟩ | he
  · simp only [List.mem_cons, List.mem_singleton, List.not_mem_nil, or_false] at he
    rcases he with rfl | rfl
    · rfl
    · obtain ⟨s, i, l, hgl⟩ := (h4 g hg).2
      rw [hgl]; rfl
  · split at he
    · simp only [List.mem_singleton] at he
      subst he; rfl
    · cases he

/-- Inside a quote a successful block rule returns sections and lists only. -/
theorem RenderBlock_in_quote (r : MyRenderer) (hl : r.blockquoteLevel > 0) (node : Node)
    (blocks : List RichTextBlock) (h : RenderBlock r node = .ok blocks) :
    ∀ b ∈ blocks, ∀ e ∈ b.elements,
      e.RichTextElementType = RTESection ∨ e.RichTextElementType = RTEList := by
  rw [RenderBlock_dispatch] at h
  split at h
  · obtain ⟨_, _, hb⟩ := RenderHeading_shape r _ blocks h
    subst hb; simp [NewRichTextBlock, RichTextElement.RichTextElementType]
  · obtain ⟨_, _, hb⟩ := RenderParagraph_shape r _ blocks h
    subst hb; simp [NewRichTextBlock, RichTextElement.RichTextElementType]
  · obtain ⟨_, _, hb⟩ := RenderTextBlock_shape r _ blocks h
    subst hb; simp [NewRichTextBlock, RichTextElement.RichTextElementType]
  · rename_i hk
    simp [RenderBlockquote, AssertKind, hk, hl] at h
  · intro b hb e he
    exact Or.inr (RenderList_elements_are_lists r node blocks h b hb e he)
  · cases h

theorem RenderBlocksFrom_in_quote (r : MyRenderer) (hl : r.blockquoteLevel > 0)
    (children : List Node) (blocks : List RichTextBlock)
    (h : RenderBlocksFrom r [] children = .ok blocks) :
    ∀ e ∈ blockElements blocks,
      e.RichTextElementType = RTESection ∨ e.RichTextElementType = RTEList := by
  have hpt := RenderBlocksFrom_pointwise r children blocks h
  intro e he
  simp only [blockElements, List.mem_flatMap] at he
  obtain ⟨b, hb, he⟩ := he
  obtain ⟨c, _, hc⟩ := pointwise_exists_left hpt b hb
  exact RenderBlock_in_quote r hl c [b] hc b (List.mem_singleton.mpr rfl) e he

/-- C16 (counterexample): a blockquote whose only child is a list with an empty item
renders without error, to a quote without items. -/
theorem quote_with_empty_list_renders :
    RenderBlockquote CreateMyRenderer quoteWithEmptyList =
      .ok [NewRichTextBlock "" [.Quote []]] := by
  rfl

/-- C16 (amended): for a Blockquote node entered with `blockquoteLevel = 0` whose
block children render without failure, `RenderBlockquote` fails with
"unsupported element type: rich_text_list" if and only if some rendered element is
not a Section, and succeeds with one Quote element if all are Sections; a List child
makes the quote fail when it renders to at least one element. -/
theorem RenderBlockquote_rejects_lists (r : MyRenderer) (node : Node)
    (rendered : List RichTextBlock)
    (hk : node.kind = KindBlockquote) (hl : r.blockquoteLevel = 0)
    (hr : RenderBlocks { r with blockquoteLevel := r.blockquoteLevel + 1 } node = .ok rendered) :
    ((∃ e ∈ blockElements rendered, e.RichTextElementType ≠ RTESection) ↔
      RenderBlockquote r node =
        .error (.error "unsupported element type: rich_text_list")) ∧
    ((∀ e ∈ blockElements rendered, e.RichTextElementType = RTESection) →
      ∃ items, RenderBlockquote r node = .ok [NewRichTextBlock "" [.Quote items]]) ∧
    (∀ c ∈ node.children, c.kind = KindList →
      ∀ b, RenderBlock { r with blockquoteLevel := r.blockquoteLevel + 1 } c = .ok [b] →
        b.elements ≠ [] →
        RenderBlockquote r node =
          .error (.error "unsupported element type: rich_text_list")) := by
  have hl' : ¬ r.blockquoteLevel > 0 := by omega
  have henter := RenderBlockquote_enter r node hk hl'
  rw [hr] at henter
  simp only [quoteFinish] at henter
  have htypes := RenderBlocksFrom_in_quote { r with blockquoteLevel := r.blockquoteLevel + 1 }
    (by simp [hl]) node.children rendered hr
  have hfail : (∃ e ∈ blockElements rendered, e.RichTextElementType ≠ RTESection) →
      RenderBlockquote r node =
        .error (.error "unsupported element type: rich_text_list") := by
    intro hex
    rcases quoteBlocksLoop_cases rendered [] with ⟨h1, _⟩ | ⟨e, he, h1, h2⟩
    · obtain ⟨e, he, hne⟩ := hex
      exact absurd (h1 e he) hne
    · rw [henter, h2]
      rcases htypes e he with hs | hs
      · exact absurd hs h1
      · rw [hs]; rfl
  refine ⟨⟨hfail, ?_⟩, ?_, ?_⟩
  · intro herr
    rcases quoteBlocksLoop_cases rendered [] with ⟨_, out, h2⟩ | ⟨e, he, h1, _⟩
    · rw [henter, h2] at herr
      cases herr
    · exact ⟨e, he, h1⟩
  · intro hall
    rcases quoteBlocksLoop_cases rendered [] with ⟨_, out, h2⟩ | ⟨e, he, h1, _⟩
    · exact ⟨out, by rw [henter, h2]⟩
    · exact absurd (hall e he) h1
  · intro c hc hck b hb hne
    apply hfail
    have hpt := RenderBlocksFrom_pointwise _ node.children rendered hr
    obtain ⟨b', hb', hcb⟩ := pointwise_exists_right hpt c hc
    rw [hb] at hcb
    have hbb : b = b' := by
      injection hcb with hcb
      injection hcb with hcb
    subst hbb
    obtain ⟨e, he⟩ := List.exists_mem_of_ne_nil _ hne
    refine ⟨e, ?_, ?_⟩
    · simp only [blockElements, List.mem_flatMap]
      exact ⟨b, hb', he⟩
    · have hlist : RenderList { r with blockquoteLevel := r.blockquoteLevel + 1 } c = .ok [b] := by
        rw [RenderBlock_dispatch, hck] at hb; exact hb
      rw [RenderList_elements_are_lists _ c [b] hlist b (List.mem_singleton.mpr rfl) e he]
      decide

/-- C19 (the code departs from the claim): when the only item of a list starts with a
plain nested list, `RenderList` returns a List element without items at indent 0
followed by the nested List element; when the nested list is itself nested one level
deeper, so that the nested call returns two List elements in a row, `RenderList` ends
in the run-time panic of the type assertion and returns nothing. -/
theorem RenderList_empty_flush_then_panic :
    RenderList CreateMyRenderer listStartingWithSublist =
      .ok [NewRichTextBlock "" [
        .ListPtr RTEListBullet 0 [],
        .ListVal RTEListBullet 1 [.Section [.TextElement "b" none, .TextElement "\n\n" none]]]] ∧
    RenderBlocks { CreateMyRenderer with listLevel := 1 }
        (.mk KindListItem {} [twoLevelList]) =
      .ok [NewRichTextBlock "" [
        .ListPtr RTEListBullet 1 [.Section [.TextElement "a" none, .TextElement "\n\n" none]],
        .ListVal RTEListBullet 2 [.Section [.TextElement "b" none, .TextElement "\n\n" none]]]] ∧
    RenderList CreateMyRenderer listStartingWithDeepSublist = .error listAssertionPanic :=
  ⟨rfl, rfl, rfl⟩

/-! ## Context and siblings -/

/-- After children that rendered, the next child is rendered by `RenderBlock` with
the context of the loop. -/
theorem RenderBlocksFrom_next (r : MyRenderer) (c : Node) (post : List Node) (pre : List Node) :
    ∀ acc bpre : List RichTextBlock, RenderBlocksFrom r acc pre = .ok bpre →
      RenderBlocksFrom r acc (pre ++ c :: post) =
        match RenderBlock r c with
        | .error e => .error e
        | .ok b => RenderBlocksFrom r (bpre ++ b) post := by
  induction pre with
  | nil =>
    intro acc bpre h
    rw [RenderBlocksFrom_nil] at h
    cases h
    rw [List.nil_append, RenderBlocksFrom_cons]
  | cons p pre ih =>
    intro acc bpre h
    rw [RenderBlocksFrom_cons] at h
    rw [List.cons_append, RenderBlocksFrom_cons]
    cases hp : RenderBlock r p with
    | error e => rw [hp] at h; cases h
    | ok childBlocks =>
      rw [hp] at h
      exact ih (acc ++ childBlocks) bpre h

theorem RenderBlocksFrom_split (r : MyRenderer) (c : Node) (post : List Node)
    (pre : List Node) :
    ∀ blocks : List RichTextBlock, RenderBlocksFrom r [] (pre ++ c :: post) = .ok blocks →
      ∃ bpre b bpost, RenderBlocksFrom r [] pre = .ok bpre ∧ RenderBlock r c = .ok [b] ∧
        RenderBlocksFrom r [] post = .ok bpost ∧ blocks = bpre ++ b :: bpost ∧
        bpre.length = pre.length := by
  induction pre with
  | nil =>
    intro blocks h
    rw [List.nil_append, RenderBlocksFrom_cons] at h
    cases hc : RenderBlock r c with
    | error e => rw [hc] at h; cases h
    | ok cb =>
      rw [hc] at h
      simp only [] at h
      rw [RenderBlocksFrom_acc] at h
      cases hp : RenderBlocksFrom r [] post with
      | error e => rw [hp] at h; cases h
      | ok bpost =>
        rw [hp] at h
        obtain ⟨b, hb⟩ := RenderBlock_singleton r c cb hc
        subst hb
        cases h
        exact ⟨[], b, bpost, RenderBlocksFrom_nil r [], rfl, rfl, by simp, rfl⟩
  | cons p pre ih =>
    intro blocks h
    rw [List.cons_append, RenderBlocksFrom_cons] at h
    cases hp : RenderBlock r p with
    | error e => rw [hp] at h; cases h
    | ok pb =>
      rw [hp] at h
      simp only [] at h
      rw [RenderBlocksFrom_acc] at h
      cases hrest : RenderBlocksFrom r [] (pre ++ c :: post) with
      | error e => rw [hrest] at h; cases h
      | ok rest =>
        rw [hrest] at h
        obtain ⟨bpre, b, bpost, h1, h2, h3, h4, h5⟩ := ih rest hrest
        obtain ⟨x, hx⟩ := RenderBlock_singleton r p pb hp
        subst hx
        cases h
        refine ⟨x :: bpre, b, bpost, ?_, h2, h3, by simp [h4], by simp [h5]⟩
        rw [RenderBlocksFrom_cons, hp]
        simp only []
        rw [RenderBlocksFrom_acc, h1]
        simp

/-- Every inline child is rendered with the context of the inline loop, and its
elements are among the result. -/
theorem RenderRichTextSectionElementsFrom_mem (r : MyRenderer) (children : List Node) :
    ∀ acc elements : List RichTextSectionElement,
      RenderRichTextSectionElementsFrom r acc children = .ok elements →
      (∀ a ∈ acc, a ∈ elements) ∧
      ∀ t ∈ children, ∃ es, RenderRichTextSectionElement r t = .ok es ∧
        ∀ e ∈ es, e ∈ elements := by
  induction children with
  | nil =>
    intro acc elements h
    simp [RenderRichTextSectionElementsFrom] at h
    subst h; simp
  | cons c rest ih =>
    intro acc elements h
    simp only [RenderRichTextSectionElementsFrom] at h
    cases hc : RenderRichTextSectionElement r c with
    | error e => rw [hc] at h; cases h
    | ok childElements =>
      rw [hc] at h
      obtain ⟨h1, h2⟩ := ih (acc ++ childElements) elements h
      refine ⟨fun a ha => h1 a (List.mem_append.mpr (Or.inl ha)), ?_⟩
      intro t ht
      rcases List.mem_cons.mp ht with rfl | ht
      · exact ⟨childElements, hc, fun e he => h1 e (List.mem_append.mpr (Or.inr he))⟩
      · exact h2 t ht

/-- After items that were assembled, the next item of a list is rendered by
`RenderBlocks` with the context of the loop. -/
theorem RenderListFrom_next (r : MyRenderer) (style : RichTextListElementType) (item : Node)
    (post : List Node) (pre : List Node) :
    ∀ acc0 acc : ListAcc, RenderListFrom r style acc0 pre = .ok acc →
      RenderListFrom r style acc0 (pre ++ item :: post) =
        match RenderBlocks r item with
        | .error e => .error e
        | .ok block =>
          match listBlocksLoop style (r.listLevel - 1) acc block with
          | .error e => .error e
          | .ok acc' => RenderListFrom r style acc' post := by
  induction pre with
  | nil =>
    intro acc0 acc h
    simp [RenderListFrom] at h
    subst h
    cases item with
    | mk k a cs => simp [RenderListFrom, RenderBlocks, Node.children]
  | cons p pre ih =>
    intro acc0 acc h
    cases p with
    | mk k a cs =>
      rw [List.cons_append]
      simp only [RenderListFrom] at h ⊢
      cases hp : RenderBlocksFrom r [] cs with
      | error e => rw [hp] at h; cases h
      | ok block =>
        rw [hp] at h
        simp only [] at h ⊢
        cases hl : listBlocksLoop style (r.listLevel - 1) acc0 block with
        | error e => rw [hl] at h; cases h
        | ok acc1 =>
          rw [hl] at h
          exact ih acc1 acc h

/-- After inline children that rendered, the next inline child is rendered with the
context of the loop. -/
theorem RenderRichTextSectionElementsFrom_next (r : MyRenderer) (c : Node) (post : List Node)
    (pre : List Node) :
    ∀ acc epre : List RichTextSectionElement,
      RenderRichTextSectionElementsFrom r acc pre = .ok epre →
      RenderRichTextSectionElementsFrom r acc (pre ++ c :: post) =
        match RenderRichTextSectionElement r c with
        | .error e => .error e
        | .ok es => RenderRichTextSectionElementsFrom r (epre ++ es) post := by
  induction pre with
  | nil =>
    intro acc epre h
    simp [RenderRichTextSectionElementsFrom] at h
    subst h
    simp [RenderRichTextSectionElementsFrom]
  | cons p pre ih =>
    intro acc epre h
    rw [List.cons_append]
    simp only [RenderRichTextSectionElementsFrom] at h ⊢
    cases hp : RenderRichTextSectionElement r p with
    | error e => rw [hp] at h; cases h
    | ok childElements =>
      rw [hp] at h
      exact ih (acc ++ childElements) epre h

/-- When the node a path starts from renders, the node the path reaches renders with
the context the path gives it. -/
theorem Reaches_renders {r r' : MyRenderer} {node target : Node}
    (h : Reaches r node r' target) :
    ∀ blocks, RenderBlock r node = .ok blocks → ∃ b, RenderBlock r' target = .ok [b] := by
  induction h with
  | here r node =>
    intro blocks hb
    obtain ⟨b, hb'⟩ := RenderBlock_singleton r node blocks hb
    exact ⟨b, hb' ▸ hb⟩
  | quote r r' node target child pre post hk hl hch _ _ ih =>
    intro blocks hb
    rw [RenderBlock_dispatch, hk] at hb
    obtain ⟨rendered, hren, _⟩ := RenderBlockquote_flattens_sections_aux r node blocks hb
    simp only [RenderBlocks, hch] at hren
    obtain ⟨_, b, _, _, hc, _⟩ := RenderBlocksFrom_split _ child post pre rendered hren
    exact ih [b] hc
  | list r r' node target item child pre post ipre ipost hk hch _ hich _ _ ih =>
    intro blocks hb
    rw [RenderBlock_dispatch, hk] at hb
    obtain ⟨rendered, _, _, hf, _⟩ := RenderList_assembled r node blocks hb
    have hmem : item ∈ node.children := by rw [hch]; simp
    obtain ⟨bs, _, hitem⟩ := pointwise_exists_right hf item hmem
    simp only [RenderBlocks, hich] at hitem
    obtain ⟨_, b, _, _, hc, _⟩ := RenderBlocksFrom_split _ child ipost ipre bs hitem
    exact ih [b] hc

/-- C18: the context a node is rendered with depends on its ancestors only.  In each
of the three loops over siblings (blocks, list items, inline children) the child that
follows children that rendered is rendered with the context of the loop, on the
failing and on the successful path, whatever the earlier siblings are; each rule hands
its children a context computed from its own context alone (blockquote: level + 1,
list: level + 1, heading: `insideHeader`, paragraph and text block: unchanged); and a
node reached through any depth of quotes and list items is rendered with the context
of its path.  So, when a sequence of siblings renders: a Paragraph gives its Text
children a nil style outside a heading, also after a Heading; a Blockquote at
`blockquoteLevel = 0` is entered and its children are rendered at level 1, also after
another Blockquote; a List builds its List elements with `indent` equal to the
`listLevel` of the caller, also after another List. -/
theorem context_depends_on_ancestors_only (r : MyRenderer) (pre : List Node) (c : Node)
    (post : List Node) :
    (∀ bpre, RenderBlocksFrom r [] pre = .ok bpre →
      RenderBlocksFrom r [] (pre ++ c :: post) =
        match RenderBlock r c with
        | .error e => .error e
        | .ok b => RenderBlocksFrom r (bpre ++ b) post) ∧
    (∀ (style : RichTextListElementType) (acc0 acc : ListAcc),
      RenderListFrom r style acc0 pre = .ok acc →
      RenderListFrom r style acc0 (pre ++ c :: post) =
        match RenderBlocks r c with
        | .error e => .error e
        | .ok block =>
          match listBlocksLoop style (r.listLevel - 1) acc block with
          | .error e => .error e
          | .ok acc' => RenderListFrom r style acc' post) ∧
    (∀ epre, RenderRichTextSectionElementsFrom r [] pre = .ok epre →
      RenderRichTextSectionElementsFrom r [] (pre ++ c :: post) =
        match RenderRichTextSectionElement r c with
        | .error e => .error e
        | .ok es => RenderRichTextSectionElementsFrom r (epre ++ es) post) ∧
    (c.kind = KindBlockquote → ¬ r.blockquoteLevel > 0 →
      RenderBlock r c =
        match RenderBlocks { r with blockquoteLevel := r.blockquoteLevel + 1 } c with
        | .error e => .error e
        | .ok blocks => quoteFinish blocks) ∧
    (c.kind = KindList →
      RenderBlock r c =
        match RenderListFrom { r with listLevel := r.listLevel + 1 } (listStyle c)
          { elements := [], subElements := [] } c.children with
        | .error e => .error e
        | .ok acc => .ok (listFinish (listStyle c) r.listLevel acc)) ∧
    (c.kind = KindHeading →
      RenderBlock r c =
        match RenderRichTextSectionElements { r with insideHeader := true } c with
        | .error e => .error e
        | .ok elements => .ok [NewRichTextBlock "" [.Section (elements ++ [separator])]]) ∧
    (c.kind = KindParagraph ∨ c.kind = KindTextBlock →
      RenderBlock r c =
        match RenderRichTextSectionElements r c with
        | .error e => .error e
        | .ok elements => .ok [NewRichTextBlock "" [.Section (elements ++ [separator])]]) ∧
    (∀ (r' : MyRenderer) (target : Node), Reaches r c r' target →
      (∀ e, RenderBlock r' target = .error e → RenderBlock r c = .error e) ∧
      (∀ blocks, RenderBlock r c = .ok blocks → ∃ b, RenderBlock r' target = .ok [b])) ∧
    (∀ blocks, RenderBlocksFrom r [] (pre ++ c :: post) = .ok blocks →
      ∃ bpre b bpost, blocks = bpre ++ b :: bpost ∧ bpre.length = pre.length ∧
        RenderBlock r c = .ok [b] ∧
        (c.kind = KindParagraph → r.insideHeader = false →
          ∀ t ∈ c.children, t.kind = KindText →
            ∃ text elements, RenderText r t = .ok [.TextElement text none] ∧
              b = NewRichTextBlock "" [.Section elements] ∧
              .TextElement text none ∈ elements) ∧
        (c.kind = KindBlockquote → r.blockquoteLevel = 0 →
          RenderBlockquote r c = .ok [b] ∧
          ∃ rendered, RenderBlocks { r with blockquoteLevel := 1 } c = .ok rendered) ∧
        (c.kind = KindList →
          ∃ groups final,
            b = NewRichTextBlock "" (assembleOutput (listStyle c) r.listLevel groups final))) := by
  refine ⟨fun bpre h => RenderBlocksFrom_next r c post pre [] bpre h,
    fun style acc0 acc h => RenderListFrom_next r style c post pre acc0 acc h,
    fun epre h => RenderRichTextSectionElementsFrom_next r c post pre [] epre h,
    ?_, ?_, ?_, ?_,
    fun r' target hreach => ⟨fun e he => Reaches_fails hreach e he, Reaches_renders hreach⟩,
    ?_⟩
  · intro hk hl
    rw [RenderBlock_dispatch, hk]
    exact RenderBlockquote_enter r c hk hl
  · intro hk
    rw [RenderBlock_dispatch, hk]
    simp only [RenderList, AssertKind, hk]
    simp
  · intro hk
    rw [RenderBlock_dispatch, hk]
    simp only [RenderHeading, AssertKind, hk]
    simp
  · intro hk
    rw [RenderBlock_dispatch]
    rcases hk with hk | hk
    · rw [hk]
      simp only [RenderParagraph, AssertKind, hk]
      simp
    · rw [hk]
      simp only [RenderTextBlock, AssertKind, hk]
      simp
  · intro blocks h
    obtain ⟨bpre, b, bpost, _, hc, _, hblocks, hlen⟩ := RenderBlocksFrom_split r c post pre blocks h
    refine ⟨bpre, b, bpost, hblocks, hlen, hc, ?_, ?_, ?_⟩
    · intro hk hr t ht htk
      rw [RenderBlock_dispatch, hk] at hc
      obtain ⟨elements, he, hb⟩ := RenderParagraph_shape r c [b] hc
      obtain ⟨_, hmem⟩ := RenderRichTextSectionElementsFrom_mem r c.children [] elements he
      obtain ⟨es, hes, hsub⟩ := hmem t ht
      have htext : RenderText r t = .ok [.TextElement
          (if t.attrs.softLineBreak = true ∨ t.attrs.hardLineBreak = true
            then t.attrs.text ++ "\n" else t.attrs.text) none] := by
        simp [RenderText, AssertKind, htk, hr]
      have hes' : RenderRichTextSectionElement r t = RenderText r t := by
        simp [RenderRichTextSectionElement, htk]
      rw [hes', htext] at hes
      injection hes with hes
      subst hes
      injection hb with hb
      exact ⟨_, elements ++ [separator], htext, hb,
        List.mem_append.mpr (Or.inl (hsub _ (List.mem_singleton.mpr rfl)))⟩
    · intro hk hl
      rw [RenderBlock_dispatch, hk] at hc
      refine ⟨hc, ?_⟩
      obtain ⟨rendered, hren, _⟩ := RenderBlockquote_flattens_sections_aux r c [b] hc
      rw [hl] at hren
      exact ⟨rendered, by simpa using hren⟩
    · intro hk
      rw [RenderBlock_dispatch, hk] at hc
      obtain ⟨_, groups, final, _, h2, _⟩ := RenderList_assembled r c [b] hc
      injection h2 with h2
      exact ⟨groups, final, h2⟩

/-! ## Witnesses of C14 to C18 -/

/-- Witness of C14: a list nested two levels deep. -/
theorem RenderList_preserves_order_witness :
    ∃ (rendered : List (List RichTextBlock)) (out : List RichTextElement),
      List.Forall₂
        (fun item bs => RenderBlocks
          { CreateMyRenderer with listLevel := CreateMyRenderer.listLevel + 1 } item = .ok bs)
        twoLevelList.children rendered ∧
      [NewRichTextBlock "" [
        .ListPtr RTEListBullet 0 [.Section [.TextElement "a" none, .TextElement "\n\n" none]],
        .ListVal RTEListBullet 1 [.Section [.TextElement "b" none, .TextElement "\n\n" none]]]]
        = [NewRichTextBlock "" out] ∧
      flattenOwn out = renderedElements rendered :=
  RenderList_preserves_order CreateMyRenderer twoLevelList _ rfl

/-- Witness of C15: an ordered list entered at level 1. -/
theorem RenderList_own_lists_style_indent_witness :
    ∃ (rendered : List (List RichTextBlock)) (groups : List ListGroup)
      (final : List RichTextElement),
      List.Forall₂
        (fun item bs => RenderBlocks
          { insideHeader := false, blockquoteLevel := 0, listLevel := 1 + 1 } item = .ok bs)
        [Node.mk KindListItem {} [.mk KindTextBlock {} [textNode "one"]]] rendered ∧
      renderedElements rendered = interleaved groups final ∧
      [NewRichTextBlock "" [
        .ListVal RTEListOrdered 1 [.Section [.TextElement "one" none, .TextElement "\n\n" none]]]]
        = [NewRichTextBlock "" (assembleOutput RTEListOrdered 1 groups final)] :=
  RenderList_own_lists_style_indent
    { insideHeader := false, blockquoteLevel := 0, listLevel := 1 }
    (.mk KindList { isOrdered := true }
      [.mk KindListItem {} [.mk KindTextBlock {} [textNode "one"]]]) _ rfl

/-- Witness of C16 (amended): a quote holding a paragraph and a list of two items. -/
theorem RenderBlockquote_rejects_lists_witness :
    RenderBlockquote CreateMyRenderer quoteWithList =
      .error (.error "unsupported element type: rich_text_list") :=
  (RenderBlockquote_rejects_lists CreateMyRenderer quoteWithList
    [ NewRichTextBlock "" [.Section [.TextElement "quoted" none, .TextElement "\n\n" none]],
      NewRichTextBlock "" [.ListVal RTEListBullet 0 [
        .Section [.TextElement "one" none, .TextElement "\n\n" none],
        .Section [.TextElement "two" none, .TextElement "\n\n" none]]] ]
    rfl rfl rfl).2.2 flatList (by simp [quoteWithList, Node.children]) rfl
    (NewRichTextBlock "" [.ListVal RTEListBullet 0 [
        .Section [.TextElement "one" none, .TextElement "\n\n" none],
        .Section [.TextElement "two" none, .TextElement "\n\n" none]]])
    rfl (by simp [NewRichTextBlock])

/-- Witness of C17: the nested List element of a list nested two levels deep holds a
Section. -/
theorem RenderList_items_are_sections_witness :
    RenderList CreateMyRenderer twoLevelList =
      .ok [NewRichTextBlock "" [
        .ListPtr RTEListBullet 0 [.Section [.TextElement "a" none, .TextElement "\n\n" none]],
        .ListVal RTEListBullet 1 [.Section [.TextElement "b" none, .TextElement "\n\n" none]]]] ∧
    ∃ elements, RichTextElement.Section [.TextElement "b" none, .TextElement "\n\n" none] =
      .Section elements :=
  ⟨rfl, RenderList_items_are_sections CreateMyRenderer twoLevelList _ rfl
    (NewRichTextBlock "" [
        .ListPtr RTEListBullet 0 [.Section [.TextElement "a" none, .TextElement "\n\n" none]],
        .ListVal RTEListBullet 1 [.Section [.TextElement "b" none, .TextElement "\n\n" none]]])
    (List.mem_singleton.mpr rfl)
    (.ListVal RTEListBullet 1 [.Section [.TextElement "b" none, .TextElement "\n\n" none]])
    (by simp [NewRichTextBlock])
    RTEListBullet 1 [.Section [.TextElement "b" none, .TextElement "\n\n" none]]
    (Or.inr rfl)
    (.Section [.TextElement "b" none, .TextElement "\n\n" none])
    (List.mem_singleton.mpr rfl)⟩

/-- Witness of C18: a paragraph that follows a heading is rendered outside the
heading context, and a blockquote in the second item of a list is rendered at
`blockquoteLevel = 0`: it renders to a quote, which the list loop then rejects. -/
theorem context_depends_on_ancestors_only_witness :
    RenderBlocksFrom CreateMyRenderer [] ([headingNode] ++ twoLineParagraph :: []) =
      (match RenderBlock CreateMyRenderer twoLineParagraph with
        | .error e => .error e
        | .ok b => RenderBlocksFrom CreateMyRenderer
            ([NewRichTextBlock "" [.Section [
              .TextElement "Release " (some { bold := true }),
              .LinkElement "http://example.com" "notes" (some { bold := true }),
              .TextElement "draft" (some { bold := true, italic := true }),
              .TextElement "\n\n" none]]] ++ b) []) ∧
    RenderListFrom { insideHeader := false, blockquoteLevel := 0, listLevel := 1 }
        RTEListBullet { elements := [], subElements := [] } ([plainItem] ++ quoteItem :: []) =
      .error (.error "unsupported element type: rich_text_quote") ∧
    RenderBlocks { insideHeader := false, blockquoteLevel := 0, listLevel := 1 } quoteItem =
      .ok [NewRichTextBlock "" [.Quote [.TextElement "quoted" none, .TextElement "\n\n" none]]] ∧
    ∃ bpre b bpost,
      [ NewRichTextBlock "" [.Section [
          .TextElement "Release " (some { bold := true }),
          .LinkElement "http://example.com" "notes" (some { bold := true }),
          .TextElement "draft" (some { bold := true, italic := true }),
          .TextElement "\n\n" none]],
        NewRichTextBlock "" [.Section [
          .TextElement "first\n" none, .TextElement "second" none,
          .TextElement "\n\n" none]] ] = bpre ++ b :: bpost ∧
      bpre.length = [headingNode].length ∧
      RenderBlock CreateMyRenderer twoLineParagraph = .ok [b] ∧
      (twoLineParagraph.kind = KindParagraph → CreateMyRenderer.insideHeader = false →
        ∀ t ∈ twoLineParagraph.children, t.kind = KindText →
          ∃ text elements, RenderText CreateMyRenderer t = .ok [.TextElement text none] ∧
            b = NewRichTextBlock "" [.Section elements] ∧
            .TextElement text none ∈ elements) ∧
      (twoLineParagraph.kind = KindBlockquote → CreateMyRenderer.blockquoteLevel = 0 →
        RenderBlockquote CreateMyRenderer twoLineParagraph = .ok [b] ∧
        ∃ rendered, RenderBlocks { CreateMyRenderer with blockquoteLevel := 1 }
          twoLineParagraph = .ok rendered) ∧
      (twoLineParagraph.kind = KindList →
        ∃ groups final,
          b = NewRichTextBlock ""
            (assembleOutput (listStyle twoLineParagraph) CreateMyRenderer.listLevel
              groups final)) :=
  ⟨(context_depends_on_ancestors_only CreateMyRenderer [headingNode] twoLineParagraph []).1
      _ rfl,
   (context_depends_on_ancestors_only
      { insideHeader := false, blockquoteLevel := 0, listLevel := 1 }
      [plainItem] quoteItem []).2.1 RTEListBullet { elements := [], subElements := [] }
      { elements := [],
        subElements := [.Section [.TextElement "one" none, .TextElement "\n\n" none]] } rfl,
   rfl,
   (context_depends_on_ancestors_only CreateMyRenderer [headingNode] twoLineParagraph
      []).2.2.2.2.2.2.2.2 _ rfl⟩

end MdBlockKit
